import Mathlib

/-!
# Live incident reconciliation: the client-side reducers and channels

A shallow embedding of the reconciliation logic of the incident-response
frontend:

* `frontend/src/pages/IncidentFeed.jsx`: the arrival-order reducer passed to
  `connectWebSocket`, and `loadIncidents`;
* `frontend/src/pages/AdminPanel.jsx`: the priority-rank reducer passed to
  `connectWebSocket`, its sort comparator, and `loadIncidents`;
* `frontend/src/services/websocket.js`: the handler subscribed to
  `/topic/incidents`.

React state is passed explicitly: a `setIncidents(prev => ...)` updater is a
function from the previous collection to the next one, and the resolution of
an awaited request is an input of the function that models the code after the
`await`.
-/

namespace IncidentResponse

/-! ## Data model -/

/-- An incident record as the reducers read it.  `createdAt` holds the time value of
`new Date(incident.createdAt)` in milliseconds, `none` standing for an invalid date (whose
time value is NaN).  `status` stands for the fields the reducers never inspect. -/
structure Incident where
  id : Nat
  status : String
  confidenceScore : Int
  createdAt : Option Int
deriving DecidableEq

/-! ## Array primitives used by the reducers -/

/-- The scan of `Array.prototype.findIndex` from position `k` on: the index of the first
element satisfying `p`, or `-1`. -/
def findIndexFrom {α : Type} (p : α → Bool) : List α → Nat → Int
  | [], _ => -1
  | x :: xs, k => if p x then (k : Int) else findIndexFrom p xs (k + 1)

/-- The JavaScript `arr.findIndex(p)`. -/
def findIndex {α : Type} (p : α → Bool) (arr : List α) : Int :=
  findIndexFrom p arr 0

/-- The comparator result read by `Array.prototype.sort`: a NaN result (`none`) counts
as `+0`. -/
def sortCompare (v : Option Int) : Int :=
  match v with
  | some n => n
  | none => 0

/-- The JavaScript `arr.sort(compareFn)`.  The sort is stable; it is modelled by the stable
insertion sort, `a` staying before `b` when `compareFn(a, b)` is not positive. For a
comparator that is consistent on the entries of the array every stable sort returns this
same array.  For one that is not, ECMAScript leaves the order to the engine and this
function is only one possible outcome: what is stated below about the place of an entry in
a sorted array is stated under `ConsistentOn`, or at inputs where that holds. -/
def arraySort {α : Type} (compareFn : α → α → Option Int) (arr : List α) : List α :=
  List.insertionSort (fun a b => sortCompare (compareFn a b) ≤ 0) arr

/-! ## IncidentFeed.jsx -/

/-- The updater the feed hands to `setIncidents` for a pushed incident
(`IncidentFeed.jsx`, lines 38-46): replace at the index found, else prepend. -/
def IncidentFeed.applyUpdate (prev : List Incident) (incident : Incident) : List Incident :=
  let existing := findIndex (fun i => i.id == incident.id) prev
  if existing ≥ 0 then
    prev.set existing.toNat incident
  else
    incident :: prev

/-! ## AdminPanel.jsx -/

/-- The comparator of the admin panel (`AdminPanel.jsx`, lines 33-38):
`b.confidenceScore - a.confidenceScore` when the scores differ, else
`new Date(b.createdAt) - new Date(a.createdAt)`, which is NaN (`none`) as soon as one of
the two dates is invalid. -/
def AdminPanel.compareFn (a b : Incident) : Option Int :=
  if b.confidenceScore ≠ a.confidenceScore then
    some (b.confidenceScore - a.confidenceScore)
  else
    match b.createdAt, a.createdAt with
    | some tb, some ta => some (tb - ta)
    | _, _ => none

/-- The updater the admin panel hands to `setIncidents` for a pushed incident
(`AdminPanel.jsx`, lines 26-39): replace at the index found and return, else prepend
and sort. -/
def AdminPanel.applyUpdate (prev : List Incident) (incident : Incident) : List Incident :=
  let existing := findIndex (fun i => i.id == incident.id) prev
  if existing ≥ 0 then
    prev.set existing.toNat incident
  else
    arraySort AdminPanel.compareFn (incident :: prev)

/-! ## Snapshot fetches (`loadIncidents`) -/

/-- The `data` of an HTTP response: an array of incidents, or a value of another shape. -/
inductive ResponseData where
  | array (items : List Incident)
  | nonArray
deriving DecidableEq

/-- How an awaited request settles.  A rejection carries `error.response?.data?.error`,
the message of the server when there is one (`none` for `undefined`). -/
inductive FetchOutcome where
  | resolved (data : ResponseData)
  | rejected (serverError : Option String)
deriving DecidableEq

/-- The state of the feed that `loadIncidents` writes. -/
structure IncidentFeed.State where
  incidents : List Incident
  loading : Bool
deriving DecidableEq

/-- The part of `IncidentFeed.loadIncidents` before the `await` (line 85). -/
def IncidentFeed.loadIncidentsStart (s : IncidentFeed.State) : IncidentFeed.State :=
  { s with loading := true }

/-- The part of `IncidentFeed.loadIncidents` after `await incidentApi.query(params)`
(lines 100-106), for a response whose data is the list `data`, as the collaborator
declares it: `setIncidents(response.data)`; a rejection is only logged. -/
def IncidentFeed.loadIncidentsSettle (s : IncidentFeed.State) :
    Except String (List Incident) → IncidentFeed.State
  | .ok data => { incidents := data, loading := false }
  | .error _ => { s with loading := false }

/-- The push callback of the feed on its state: `setIncidents` with the updater. -/
def IncidentFeed.onMessage (incident : Incident) (s : IncidentFeed.State) :
    IncidentFeed.State :=
  { s with incidents := IncidentFeed.applyUpdate s.incidents incident }

/-- The state of the admin panel that `loadIncidents` writes. -/
structure AdminPanel.State where
  incidents : List Incident
  loading : Bool
  error : Option String
deriving DecidableEq

/-- The part of `AdminPanel.loadIncidents` before the `await` (lines 61-62). -/
def AdminPanel.loadIncidentsStart (s : AdminPanel.State) : AdminPanel.State :=
  { s with loading := true, error := none }

/-- The part of `AdminPanel.loadIncidents` after
`await incidentApi.getAllIncidents(...)` (lines 65-77). -/
def AdminPanel.loadIncidentsSettle (s : AdminPanel.State) :
    FetchOutcome → AdminPanel.State
  | .resolved (.array data) =>
      { incidents := data, loading := false, error := s.error }
  | .resolved .nonArray =>
      { incidents := [], loading := false,
        error := some "Invalid response format from server" }
  | .rejected serverError =>
      { incidents := [], loading := false,
        error := some (
          match serverError with
          | some e =>
              if e = "" then "Failed to load incidents. Please check your connection."
              else e
          | none => "Failed to load incidents. Please check your connection.") }

/-- The push callback of the admin panel on its state: `setIncidents` with the updater. -/
def AdminPanel.onMessage (incident : Incident) (s : AdminPanel.State) :
    AdminPanel.State :=
  { s with incidents := AdminPanel.applyUpdate s.incidents incident }

/-! ## websocket.js: the subscription handler -/

/-- A call of one of the two callbacks given to `connectWebSocket`; `ι` is the type of
the values `JSON.parse` returns. -/
inductive Call (ι : Type) where
  | onMessage (value : ι)
  | onError (error : String)

/-- What the code of `connectWebSocket` can touch: the state `caller` that the callbacks
act on, the lines written with `console.error`, and the calls made to the callbacks so
far. -/
structure Env (ι σ : Type) where
  caller : σ
  console : List String
  calls : List (Call ι)

/-- The two callbacks given to `connectWebSocket`.  `onMessage` returns the next state of
its caller and the exception it throws, if any; `onError` may be absent. -/
structure Callbacks (ι σ : Type) where
  onMessage : ι → σ → σ × Option String
  onError : Option (String → σ → σ)

/-- The statement `if (onError) onError(error)` of `websocket.js`. -/
def reportError {ι σ : Type} (cb : Callbacks ι σ) (error : String) (env : Env ι σ) :
    Env ι σ :=
  match cb.onError with
  | none => env
  | some f =>
      { env with caller := f error env.caller, calls := env.calls ++ [Call.onError error] }

/-- The `onWebSocketError` handler (`websocket.js`, lines 54-57): log, then report. -/
def onWebSocketError {ι σ : Type} (cb : Callbacks ι σ) (error : String) (env : Env ι σ) :
    Env ι σ :=
  reportError cb error
    { env with console := env.console ++ ["WebSocket connection error: " ++ error] }

/-- The handler subscribed to `/topic/incidents` (`websocket.js`, lines 34-41), for the
message text `body`.  `jsonParse` is `JSON.parse`, `.error` being the exception it throws;
the value it returns goes to `onMessage` as it is.  Both calls stand in one `try` whose
`catch` only logs.  The result is `.error` when the handler itself throws. -/
def subscribeHandler {ι σ : Type} (jsonParse : String → Except String ι)
    (cb : Callbacks ι σ) (body : String) (env : Env ι σ) : Except String (Env ι σ) :=
  match jsonParse body with
  | .error e =>
      .ok { env with console := env.console ++ ["Failed to parse WebSocket message: " ++ e] }
  | .ok incident =>
      match cb.onMessage incident env.caller with
      | (caller, none) =>
          .ok { env with caller := caller, calls := env.calls ++ [Call.onMessage incident] }
      | (caller, some e) =>
          .ok { caller := caller,
                console := env.console ++ ["Failed to parse WebSocket message: " ++ e],
                calls := env.calls ++ [Call.onMessage incident] }

/-- The callbacks `IncidentFeed.jsx` passes (lines 37-51); its `onError` only warns. -/
def IncidentFeed.callbacks : Callbacks Incident IncidentFeed.State where
  onMessage := fun incident s => (IncidentFeed.onMessage incident s, none)
  onError := some (fun _ s => s)

/-- The callbacks `AdminPanel.jsx` passes (lines 25-43); its `onError` only warns. -/
def AdminPanel.callbacks : Callbacks Incident AdminPanel.State where
  onMessage := fun incident s => (AdminPanel.onMessage incident s, none)
  onError := some (fun _ s => s)

/-! ## IncidentFeed.jsx: the collection as `setIncidents` stores it -/

/-- The state of the feed when the response data is not taken to be a list:
`setIncidents(response.data)` stores whatever value the response carries. -/
structure IncidentFeed.RawState where
  incidents : ResponseData
  loading : Bool
deriving DecidableEq

/-- The part of `IncidentFeed.loadIncidents` after `await incidentApi.query(params)`
(lines 100-106) for any response data: there is no test of its shape, and a rejection is
only logged. -/
def IncidentFeed.loadIncidentsSettleRaw (s : IncidentFeed.RawState) :
    FetchOutcome → IncidentFeed.RawState
  | .resolved data => { incidents := data, loading := false }
  | .rejected _ => { s with loading := false }

/-! ## IncidentFeed.jsx: the query built by `loadIncidents` -/

/-- The filter state of the feed (`IncidentFeed.jsx`, lines 18-25).  The four text fields
hold the `value` of a form control; a coordinate is `null` (`none`) until geolocation
succeeds.  Numbers are integers here: the code only tests a coordinate, it never computes
with one. -/
structure Filters where
  type : String
  status : String
  radius : String
  minConfidence : String
  latitude : Option Int
  longitude : Option Int
deriving DecidableEq

/-- A value held under a key of the `params` object. -/
inductive ParamValue where
  | null
  | str (s : String)
  | num (n : Int)
  | nan
deriving DecidableEq

/-- The `params` object: its own keys in insertion order, each with its value. -/
abbrev Params := List (String × ParamValue)

/-- The property read `params[key]`; `none` is `undefined`. -/
def Params.get (params : Params) (key : String) : Option ParamValue :=
  (params.find? (fun kv => kv.1 == key)).map (fun kv => kv.2)

/-- The assignment `params[key] = v`: overwrite in place, or add the key at the end. -/
def Params.assign (params : Params) (key : String) (v : ParamValue) : Params :=
  if params.any (fun kv => kv.1 == key) then
    params.map (fun kv => if kv.1 == key then (key, v) else kv)
  else
    params ++ [(key, v)]

/-- The keys of the object, as `Object.keys` lists them. -/
def Params.keys (params : Params) : List String :=
  params.map (fun kv => kv.1)

/-- JavaScript truthiness of a property read. -/
def truthy : Option ParamValue → Bool
  | none => false
  | some .null => false
  | some (.str s) => s != ""
  | some (.num n) => n != 0
  | some .nan => false

/-- The characters `parseInt` skips in front of the number (white space and line
terminators of ECMAScript), by code point. -/
def isStrWhiteSpaceChar (c : Char) : Bool :=
  c.toNat ∈ [9, 10, 11, 12, 13, 32, 160, 5760, 8192, 8193, 8194, 8195, 8196, 8197, 8198,
    8199, 8200, 8201, 8202, 8232, 8233, 8239, 8287, 12288, 65279]

/-- The value of `c` as a digit of the given radix (10 or 16), if it is one. -/
def digitValue (radix : Nat) (c : Char) : Option Nat :=
  if c.isDigit then some (c.toNat - 48)
  else if radix = 16 ∧ 97 ≤ c.toNat ∧ c.toNat ≤ 102 then some (c.toNat - 87)
  else if radix = 16 ∧ 65 ≤ c.toNat ∧ c.toNat ≤ 70 then some (c.toNat - 55)
  else none

/-- The JavaScript `parseInt(string)` without a radix, on a string: skip white space, read
a sign, read `0x` or `0X` as the mark of radix 16, then read the longest run of digits;
`none` is NaN, the result when that run is empty.  The integer is exact here, where
JavaScript rounds it to a double. -/
def parseInt (string : String) : Option Int :=
  let s := string.toList.dropWhile isStrWhiteSpaceChar
  let negative := s.head? == some '-'
  let s := if s.head? == some '-' ∨ s.head? == some '+' then s.tail else s
  let hex := s.take 2 == ['0', 'x'] ∨ s.take 2 == ['0', 'X']
  let radix := if hex then 16 else 10
  let s := if hex then s.drop 2 else s
  let z := s.takeWhile (fun c => (digitValue radix c).isSome)
  if z = [] then none
  else
    let mathInt : Nat := z.foldl (fun acc c => acc * radix + (digitValue radix c).getD 0) 0
    some (if negative then -(mathInt : Int) else (mathInt : Int))

/-- The call `parseInt(v)` on a property read: the argument is first turned into a
string. -/
def parseIntValue : Option ParamValue → ParamValue
  | some (.str s) => match parseInt s with
    | some n => .num n
    | none => .nan
  | some (.num n) => .num n
  | _ => .nan

/-- The value of a coordinate of the filter state in the `params` object. -/
def coordinateValue : Option Int → ParamValue
  | none => .null
  | some n => .num n

/-- The object `{ ...filters, limit: 100, offset: 0 }` (`IncidentFeed.jsx`,
lines 87-91). -/
def IncidentFeed.spreadParams (filters : Filters) : Params :=
  [("type", .str filters.type), ("status", .str filters.status),
   ("radius", .str filters.radius), ("minConfidence", .str filters.minConfidence),
   ("latitude", coordinateValue filters.latitude),
   ("longitude", coordinateValue filters.longitude),
   ("limit", .num 100), ("offset", .num 0)]

/-- The test `params[key] === '' || params[key] === null` of the clean-up loop. -/
def isEmptyValue (v : ParamValue) : Bool :=
  v == .str "" || v == .null

/-- The `params` object that `loadIncidents` hands to `incidentApi.query`
(`IncidentFeed.jsx`, lines 87-98): the filter fields with `limit` and `offset`, `radiusKm`
and `minConfidenceScore` added when their sources are truthy, then every key deleted whose
value is the empty string or null. -/
def IncidentFeed.buildParams (filters : Filters) : Params :=
  let params := IncidentFeed.spreadParams filters
  let params :=
    if truthy (params.get "radius") then
      params.assign "radiusKm" ((params.get "radius").getD .null)
    else params
  let params :=
    if truthy (params.get "minConfidence") then
      params.assign "minConfidenceScore" (parseIntValue (params.get "minConfidence"))
    else params
  params.filter (fun kv => !isEmptyValue kv.2)

/-- The `disabled` attribute of the radius input (`IncidentFeed.jsx`, line 193):
`!filters.latitude || !filters.longitude`. -/
def IncidentFeed.radiusInputDisabled (filters : Filters) : Bool :=
  !truthy (some (coordinateValue filters.latitude)) ||
    !truthy (some (coordinateValue filters.longitude))

/-! ## Classification -/

/-- The severity label of the admin panel (`AdminPanel.jsx`, lines 136-140). -/
def AdminPanel.getSeverityLevel (score : Int) : String :=
  if score ≥ 70 then "HIGH"
  else if score ≥ 40 then "MEDIUM"
  else "LOW"

/-- The argument of `getStatusBadge`: a string, or one of the two missing values. -/
inductive StatusArg where
  | undefined
  | null
  | str (s : String)
deriving DecidableEq

/-- The property key a status stands for in `styles[status]`. -/
def StatusArg.toPropertyKey : StatusArg → String
  | .undefined => "undefined"
  | .null => "null"
  | .str s => s

/-- The names every object literal inherits from `Object.prototype`; each holds a function
or an object, a truthy value. -/
def objectPrototypeKeys : List String :=
  ["constructor", "__defineGetter__", "__defineSetter__", "hasOwnProperty",
   "__lookupGetter__", "__lookupSetter__", "isPrototypeOf", "propertyIsEnumerable",
   "toString", "valueOf", "__proto__", "toLocaleString"]

/-- The value of a property read on an object literal whose own properties are strings. -/
inductive Looked where
  | undefined
  | str (s : String)
  | inherited (key : String)
deriving DecidableEq

/-- The property read `styles[key]` on the object literal `styles`: an own property, else
the member inherited from `Object.prototype`, else `undefined`. -/
def lookupProperty (styles : List (String × String)) (key : String) : Looked :=
  match styles.find? (fun kv => kv.1 == key) with
  | some kv => .str kv.2
  | none => if key ∈ objectPrototypeKeys then .inherited key else .undefined

/-- The expression `a || b` on looked-up values: `a` when it is truthy. -/
def Looked.orElse (a b : Looked) : Looked :=
  match a with
  | .undefined => b
  | .str s => if s = "" then b else .str s
  | .inherited key => .inherited key

/-- The table `styles` of `getStatusBadge` in `IncidentFeed.jsx` (lines 110-116). -/
def IncidentFeed.styles : List (String × String) :=
  [("UNVERIFIED", "bg-gray-100 text-gray-800"),
   ("VERIFIED", "bg-green-100 text-green-800"),
   ("IN_PROGRESS", "bg-blue-100 text-blue-800"),
   ("RESOLVED", "bg-emergency-success text-white"),
   ("FALSE", "bg-red-100 text-red-800")]

/-- The function `getStatusBadge` of `IncidentFeed.jsx` (lines 109-118):
`styles[status] || styles.UNVERIFIED`. -/
def IncidentFeed.getStatusBadge (status : StatusArg) : Looked :=
  (lookupProperty IncidentFeed.styles status.toPropertyKey).orElse
    (lookupProperty IncidentFeed.styles "UNVERIFIED")

/-- The table `styles` of `getStatusBadge` in `AdminPanel.jsx` (lines 120-126). -/
def AdminPanel.styles : List (String × String) :=
  [("UNVERIFIED", "bg-gray-100 text-gray-800"),
   ("VERIFIED", "bg-green-100 text-green-800"),
   ("IN_PROGRESS", "bg-blue-100 text-blue-800"),
   ("RESOLVED", "bg-emergency-success text-white"),
   ("FALSE", "bg-red-100 text-red-800")]

/-- The function `getStatusBadge` of `AdminPanel.jsx` (lines 119-128):
`styles[status] || styles.UNVERIFIED`. -/
def AdminPanel.getStatusBadge (status : StatusArg) : Looked :=
  (lookupProperty AdminPanel.styles status.toPropertyKey).orElse
    (lookupProperty AdminPanel.styles "UNVERIFIED")

/-! ## websocket.js: the connection handle -/

/-- A call made on a stompjs `Client`; clients are numbered in the order of their
construction. -/
inductive ClientOp where
  | construct (i : Nat)
  | activate (i : Nat)
  | deactivate (i : Nat)
deriving DecidableEq

/-- The module state of `websocket.js`: the handle `client` (`none` for `null`, else the
number of the client it refers to), whether each client constructed so far is active, and
the calls made on clients so far. -/
structure Manager where
  client : Option Nat
  clients : List Bool
  ops : List ClientOp
deriving DecidableEq

/-- The state of the module when it is loaded: `let client = null`. -/
def Manager.initial : Manager :=
  { client := none, clients := [], ops := [] }

/-- The call `client.deactivate()` on client `i`: stompjs makes the client inactive at
once and does not throw. -/
def Manager.deactivate (i : Nat) (m : Manager) : Manager :=
  { m with clients := m.clients.set i false, ops := m.ops ++ [.deactivate i] }

/-- The function `connectWebSocket` (`websocket.js`, lines 6-68) on the module state and
on what its callbacks can touch.  `activateError` is the exception `client.activate()`
throws, if any; a client whose activation throws is taken not to be active. -/
def connectWebSocket {ι σ : Type} (cb : Callbacks ι σ) (activateError : Option String)
    (m : Manager) (env : Env ι σ) : Manager × Env ι σ :=
  let m := match m.client with
    | some i => m.deactivate i
    | none => m
  let j := m.clients.length
  let m : Manager :=
    { client := some j, clients := m.clients ++ [false], ops := m.ops ++ [.construct j] }
  match activateError with
  | none =>
      ({ m with clients := m.clients.set j true, ops := m.ops ++ [.activate j] }, env)
  | some e =>
      ({ m with ops := m.ops ++ [.activate j] },
        reportError cb e
          { env with console := env.console ++ ["Failed to activate WebSocket client: " ++ e] })

/-- The function `disconnectWebSocket` (`websocket.js`, lines 70-75). -/
def disconnectWebSocket (m : Manager) : Manager :=
  match m.client with
  | some i => { m.deactivate i with client := none }
  | none => m

/-- A call of one of the two exported functions of `websocket.js`. -/
inductive ManagerCall (ι σ : Type) where
  | connect (cb : Callbacks ι σ) (activateError : Option String)
  | disconnect

/-- The effect of one call on the module state and on what the callbacks can touch. -/
def ManagerCall.run {ι σ : Type} (w : Manager × Env ι σ) :
    ManagerCall ι σ → Manager × Env ι σ
  | .connect cb activateError => connectWebSocket cb activateError w.1 w.2
  | .disconnect => (disconnectWebSocket w.1, w.2)

/-! ## IncidentFeed.jsx: the markers of the map -/

/-- An incident as the map of the feed reads it: the record with its two coordinates,
`none` when the field is missing or null.  Numbers are integers here: the code only hands
a coordinate on. -/
structure LocatedIncident extends Incident where
  latitude : Option Int
  longitude : Option Int
deriving DecidableEq

/-- A `Marker` element of the map: its `key` and its `position` pair. -/
structure Marker where
  key : Nat
  position : Option Int × Option Int
deriving DecidableEq

/-- The `Marker` elements the feed renders (`IncidentFeed.jsx`, lines 267-299): the map is
rendered only once `userLocation` is set, and `incidents.map` then gives one `Marker` for
each entry. -/
def IncidentFeed.markers (userLocation : Option (Int × Int))
    (incidents : List LocatedIncident) : List Marker :=
  match userLocation with
  | some _ =>
      incidents.map (fun incident =>
        { key := incident.id, position := (incident.latitude, incident.longitude) })
  | none => []

/-! ## The reducer of the feed on values of any shape -/

/-- A value `JSON.parse` returns.  Numbers are integers here. -/
inductive Json where
  | null
  | bool (b : Bool)
  | num (n : Int)
  | str (s : String)
  | arr (items : List Json)
  | obj (fields : List (String × Json))

/-- The property read `v.id`: a TypeError when `v` is null; the own property of an object;
`undefined` (`none`) on every other value, none of which has or inherits an `id`. -/
def Json.getId : Json → Except String (Option Json)
  | .null => .error "TypeError: Cannot read properties of null (reading id)"
  | .obj fields => .ok ((fields.find? (fun kv => kv.1 == "id")).map (fun kv => kv.2))
  | _ => .ok none

/-- The comparison `a === b` of two property reads.  Arrays and objects are compared by
reference: two values parsed from two messages are never the same object. -/
def strictEquals : Option Json → Option Json → Bool
  | none, none => true
  | some .null, some .null => true
  | some (.bool a), some (.bool b) => a == b
  | some (.num a), some (.num b) => a == b
  | some (.str a), some (.str b) => a == b
  | _, _ => false

/-- The scan of `Array.prototype.findIndex` from position `k` on, for a callback that may
throw: the exception of the callback leaves the scan. -/
def findIndexFromE {α ε : Type} (p : α → Except ε Bool) : List α → Nat → Except ε Int
  | [], _ => .ok (-1)
  | x :: xs, k =>
      match p x with
      | .error e => .error e
      | .ok true => .ok (k : Int)
      | .ok false => findIndexFromE p xs (k + 1)

/-- The callback `i => i.id === incident.id` on values of any shape: `i.id` is read first,
then `incident.id`. -/
def sameIdJson (incident i : Json) : Except String Bool :=
  match i.getId with
  | .error e => .error e
  | .ok a =>
      match incident.getId with
      | .error e => .error e
      | .ok b => .ok (strictEquals a b)

/-- The updater of the feed (`IncidentFeed.jsx`, lines 38-46) on values of any shape;
`.error` is the exception it throws. -/
def IncidentFeed.applyUpdateJson (prev : List Json) (incident : Json) :
    Except String (List Json) :=
  match findIndexFromE (sameIdJson incident) prev 0 with
  | .error e => .error e
  | .ok existing =>
      if existing ≥ 0 then
        .ok (prev.set existing.toNat incident)
      else
        .ok (incident :: prev)

/-- The push callback of the feed on values of any shape, acting on what the view holds:
its collection, or (`.error`) the exception its updater threw when React ran it.
`setIncidents` runs the updater outside the caller, so the callback itself never throws
into the subscription handler. -/
def IncidentFeed.onMessageJson (incident : Json) (s : Except String (List Json)) :
    Except String (List Json) :=
  match s with
  | .ok prev => IncidentFeed.applyUpdateJson prev incident
  | .error e => .error e

/-- The callbacks `IncidentFeed.jsx` passes (lines 37-51), on values of any shape. -/
def IncidentFeed.callbacksJson : Callbacks Json (Except String (List Json)) where
  onMessage := fun incident s => (IncidentFeed.onMessageJson incident s, none)
  onError := some (fun _ s => s)

/-- An incident record as a parsed value: an object with the four fields.  A parseable
creation time is given as its number of milliseconds, an unparseable one as the empty
string. -/
def Incident.toJson (i : Incident) : Json :=
  .obj [("id", .num i.id), ("status", .str i.status),
    ("confidenceScore", .num i.confidenceScore),
    ("createdAt", match i.createdAt with
      | some t => .num t
      | none => .str "")]

/-! ## Vocabulary of the statements -/

/-- The last update of `updates` that carries the identifier `k`, if there is one. -/
def lastUpdate? (updates : List Incident) (k : Nat) : Option Incident :=
  updates.reverse.find? (fun u => u.id == k)

/-- The collection `c` holds exactly one entry for each identifier of `updates`, no entry
for another identifier, and each entry is the last update of its identifier. -/
def Reconciles (c updates : List Incident) : Prop :=
  (c.map Incident.id).Nodup ∧
  (∀ k, k ∈ c.map Incident.id ↔ k ∈ updates.map Incident.id) ∧
  ∀ e ∈ c, lastUpdate? updates e.id = some e

/-- The array with its first entry of identifier `incident.id` replaced by `incident`:
what `updated[existing] = incident` leaves when `findIndex` finds an entry. -/
def replaceFirst (incident : Incident) : List Incident → List Incident
  | [] => []
  | x :: xs =>
      if x.id = incident.id then incident :: xs else x :: replaceFirst incident xs

/-- The ordering rule between an entry `a` and a later entry `b`: `a` has the greater
confidence score, or the same score and a creation time not before that of `b`.  A
comparison with an invalid date is false, as in JavaScript. -/
def rankedBefore (a b : Incident) : Bool :=
  decide (a.confidenceScore > b.confidenceScore) ||
    (decide (a.confidenceScore = b.confidenceScore) &&
      match a.createdAt, b.createdAt with
      | some ta, some tb => decide (ta ≥ tb)
      | _, _ => false)

/-- The collection obeys the ordering rule: every entry is `rankedBefore` every later
one. -/
def RankOrdered (c : List Incident) : Prop :=
  c.Pairwise (fun a b => rankedBefore a b = true)

/-- The number the sort reads for the pair `(a, b)`: the result of the comparator of the
admin panel, NaN counted as `+0`. -/
def sortValue (a b : Incident) : Int :=
  sortCompare (AdminPanel.compareFn a b)

/-- The comparator of the admin panel, as the sort reads it, is a consistent comparison
function of ECMAScript on the entries of `l`: ties are reflexive, symmetric and transitive,
and so are the two strict orders transitive.  On such entries every stable sort returns
the same array. -/
def ConsistentOn (l : List Incident) : Prop :=
  ∀ a ∈ l, ∀ b ∈ l, ∀ c ∈ l,
    sortValue a a = 0 ∧
    (sortValue a b = 0 → sortValue b a = 0) ∧
    (sortValue a b = 0 → sortValue b c = 0 → sortValue a c = 0) ∧
    (sortValue a b < 0 → sortValue b c < 0 → sortValue a c < 0) ∧
    (sortValue a b > 0 → sortValue b c > 0 → sortValue a c > 0)

/-- The entry `a` stands before the entry `b` in the collection `c`. -/
def StandsBefore (a b : Incident) (c : List Incident) : Prop :=
  [a, b].Sublist c

/-- The entry a text field of the filter state leaves in the query: none when the field is
empty. -/
def textEntry (key value : String) : Params :=
  if value = "" then [] else [(key, .str value)]

/-- The entry a coordinate of the filter state leaves in the query: none when it is
null. -/
def coordinateEntry (key : String) (value : Option Int) : Params :=
  match value with
  | none => []
  | some n => [(key, .num n)]

/-- The shape the module state keeps: with a null handle no client is active; otherwise the
handle refers to the client constructed last and every earlier client is inactive. -/
def Manager.Sound (m : Manager) : Prop :=
  (m.client = none ∧ ∀ b ∈ m.clients, b = false) ∨
  ∃ (earlier : List Bool) (b : Bool), m.clients = earlier ++ [b] ∧
    m.client = some earlier.length ∧ ∀ x ∈ earlier, x = false

/-- The one upsert the two reducers are instances of, with the ordering strategy `place` as
a parameter: scan for an entry of the identifier of `incident`; replace it where it stands
when there is one, else add `incident` in front and let the strategy order the result.
The upsert of the specification differs: it would apply the strategy after a replacement
as well. -/
def upsertWith (place : List Incident → List Incident) (prev : List Incident)
    (incident : Incident) : List Incident :=
  if prev.any (fun i => i.id == incident.id) then replaceFirst incident prev
  else place (incident :: prev)

/-! ## The scan and the replacement -/

theorem findIndexFrom_of_forall_false {α : Type} (p : α → Bool) :
    ∀ (l : List α) (k : Nat), (∀ x ∈ l, p x = false) → findIndexFrom p l k = -1
  | [], _, _ => rfl
  | x :: xs, k, h => by
      have hx : p x = false := h x (List.mem_cons_self x xs)
      have hxs : ∀ y ∈ xs, p y = false := fun y hy => h y (List.mem_cons_of_mem x hy)
      simp [findIndexFrom, hx, findIndexFrom_of_forall_false p xs (k + 1) hxs]

theorem findIndexFrom_set (incident : Incident) :
    ∀ (l : List Incident) (k : Nat), (∃ x ∈ l, x.id = incident.id) →
      ∃ j : Nat, findIndexFrom (fun i => i.id == incident.id) l k = ((k + j : Nat) : Int) ∧
        l.set j incident = replaceFirst incident l
  | [], _, h => by simp at h
  | x :: xs, k, h => by
      by_cases hx : x.id = incident.id
      · exact ⟨0, by simp [findIndexFrom, hx], by simp [replaceFirst, hx]⟩
      · have hxs : ∃ y ∈ xs, y.id = incident.id := by
          obtain ⟨y, hy, hyid⟩ := h
          rcases List.mem_cons.mp hy with rfl | hy
          · exact absurd hyid hx
          · exact ⟨y, hy, hyid⟩
        obtain ⟨j, hj, hset⟩ := findIndexFrom_set incident xs (k + 1) hxs
        refine ⟨j + 1, ?_, ?_⟩
        · simp only [findIndexFrom, beq_iff_eq, hx, if_false]
          rw [hj]
          congr 1
          omega
        · simp [replaceFirst, hx, hset]

theorem feed_applyUpdate_of_mem {prev : List Incident} {incident : Incident}
    (h : ∃ x ∈ prev, x.id = incident.id) :
    IncidentFeed.applyUpdate prev incident = replaceFirst incident prev := by
  obtain ⟨j, hj, hset⟩ := findIndexFrom_set incident prev 0 h
  simp only [IncidentFeed.applyUpdate, findIndex, hj]
  simpa using hset

theorem feed_applyUpdate_of_not_mem {prev : List Incident} {incident : Incident}
    (h : ∀ x ∈ prev, x.id ≠ incident.id) :
    IncidentFeed.applyUpdate prev incident = incident :: prev := by
  have := findIndexFrom_of_forall_false (fun i : Incident => i.id == incident.id) prev 0
    (fun x hx => by simpa using h x hx)
  simp [IncidentFeed.applyUpdate, findIndex, this]

theorem admin_applyUpdate_of_mem {prev : List Incident} {incident : Incident}
    (h : ∃ x ∈ prev, x.id = incident.id) :
    AdminPanel.applyUpdate prev incident = replaceFirst incident prev := by
  obtain ⟨j, hj, hset⟩ := findIndexFrom_set incident prev 0 h
  simp only [AdminPanel.applyUpdate, findIndex, hj]
  simpa using hset

theorem admin_applyUpdate_of_not_mem {prev : List Incident} {incident : Incident}
    (h : ∀ x ∈ prev, x.id ≠ incident.id) :
    AdminPanel.applyUpdate prev incident =
      arraySort AdminPanel.compareFn (incident :: prev) := by
  have := findIndexFrom_of_forall_false (fun i : Incident => i.id == incident.id) prev 0
    (fun x hx => by simpa using h x hx)
  simp [AdminPanel.applyUpdate, findIndex, this]

theorem arraySort_perm {α : Type} (f : α → α → Option Int) (l : List α) :
    (arraySort f l).Perm l :=
  List.perm_insertionSort _ l

theorem map_id_replaceFirst (incident : Incident) :
    ∀ l : List Incident, (replaceFirst incident l).map Incident.id = l.map Incident.id
  | [] => rfl
  | x :: xs => by
      by_cases hx : x.id = incident.id
      · simp [replaceFirst, hx]
      · simp [replaceFirst, hx, map_id_replaceFirst incident xs]

theorem mem_replaceFirst_of_nodup (incident : Incident) :
    ∀ l : List Incident, (l.map Incident.id).Nodup → (∃ x ∈ l, x.id = incident.id) →
      ∀ e, e ∈ replaceFirst incident l ↔ e = incident ∨ (e ∈ l ∧ e.id ≠ incident.id)
  | [], _, h, _ => by simp at h
  | x :: xs, hnd, h, e => by
      have hnd' : x.id ∉ xs.map Incident.id ∧ (xs.map Incident.id).Nodup :=
        List.nodup_cons.mp hnd
      by_cases hx : x.id = incident.id
      · have hnot : ∀ y ∈ xs, y.id ≠ incident.id := by
          intro y hy hyid
          exact hnd'.1 (List.mem_map.mpr ⟨y, hy, hyid.trans hx.symm⟩)
        simp only [replaceFirst, hx, if_true, List.mem_cons]
        constructor
        · rintro (rfl | he)
          · exact Or.inl rfl
          · exact Or.inr ⟨Or.inr he, hnot e he⟩
        · rintro (rfl | ⟨rfl | he, hne⟩)
          · exact Or.inl rfl
          · exact absurd hx hne
          · exact Or.inr he
      · have hxs : ∃ y ∈ xs, y.id = incident.id := by
          obtain ⟨y, hy, hyid⟩ := h
          rcases List.mem_cons.mp hy with rfl | hy
          · exact absurd hyid hx
          · exact ⟨y, hy, hyid⟩
        have ih := mem_replaceFirst_of_nodup incident xs hnd'.2 hxs e
        simp only [replaceFirst, hx, if_false, List.mem_cons, ih]
        constructor
        · rintro (rfl | rfl | ⟨he, hne⟩)
          · exact Or.inr ⟨Or.inl rfl, hx⟩
          · exact Or.inl rfl
          · exact Or.inr ⟨Or.inr he, hne⟩
        · rintro (rfl | ⟨rfl | he, hne⟩)
          · exact Or.inr (Or.inl rfl)
          · exact Or.inl rfl
          · exact Or.inr (Or.inr ⟨he, hne⟩)

theorem lastUpdate?_append_singleton (updates : List Incident) (u : Incident) (k : Nat) :
    lastUpdate? (updates ++ [u]) k = if u.id = k then some u else lastUpdate? updates k := by
  by_cases h : u.id = k <;> simp [lastUpdate?, List.find?_cons, h]

/-- One step of either reducer keeps the collection reconciled with the updates applied:
it is enough that the step returns a rearrangement of the replaced, or extended, array. -/
theorem Reconciles.step {c updates c' : List Incident} {u : Incident}
    (hc : Reconciles c updates)
    (hmem : (∃ x ∈ c, x.id = u.id) → c'.Perm (replaceFirst u c))
    (hnot : (∀ x ∈ c, x.id ≠ u.id) → c'.Perm (u :: c)) :
    Reconciles c' (updates ++ [u]) := by
  obtain ⟨hnd, hids, hlast⟩ := hc
  by_cases h : ∃ x ∈ c, x.id = u.id
  · have hp := hmem h
    have hmap : (c'.map Incident.id).Perm (c.map Incident.id) := by
      rw [← map_id_replaceFirst u c]; exact hp.map _
    have huin : u.id ∈ c.map Incident.id := by
      obtain ⟨x, hx, hxid⟩ := h
      exact List.mem_map.mpr ⟨x, hx, hxid⟩
    refine ⟨hmap.nodup_iff.mpr hnd, ?_, ?_⟩
    · intro k
      rw [hmap.mem_iff, hids k]
      simp only [List.map_append, List.mem_append, List.map_cons, List.map_nil,
        List.mem_singleton]
      constructor
      · exact Or.inl
      · rintro (hk | rfl)
        · exact hk
        · exact (hids _).mp huin
    · intro e he
      rw [lastUpdate?_append_singleton]
      rcases (mem_replaceFirst_of_nodup u c hnd h e).mp (hp.mem_iff.mp he) with rfl | ⟨hec, hne⟩
      · simp
      · rw [if_neg (fun heq => hne heq.symm)]
        exact hlast e hec
  · have h' : ∀ x ∈ c, x.id ≠ u.id := fun x hx hxid => h ⟨x, hx, hxid⟩
    have hp := hnot h'
    have hunot : u.id ∉ c.map Incident.id := by
      intro hin
      obtain ⟨x, hx, hxid⟩ := List.mem_map.mp hin
      exact h' x hx hxid
    have hmap : (c'.map Incident.id).Perm (u.id :: c.map Incident.id) := by
      simpa using hp.map Incident.id
    refine ⟨hmap.nodup_iff.mpr (List.nodup_cons.mpr ⟨hunot, hnd⟩), ?_, ?_⟩
    · intro k
      rw [hmap.mem_iff, List.mem_cons, hids k]
      simp only [List.map_append, List.mem_append, List.map_cons, List.map_nil,
        List.mem_singleton]
      tauto
    · intro e he
      rw [lastUpdate?_append_singleton]
      rcases List.mem_cons.mp (hp.mem_iff.mp he) with rfl | hec
      · simp
      · rw [if_neg (fun heq => h' e hec heq.symm)]
        exact hlast e hec

theorem feed_foldl_reconciles (updates : List Incident) :
    Reconciles (updates.foldl IncidentFeed.applyUpdate []) updates := by
  induction updates using List.reverseRecOn with
  | nil => simp [Reconciles]
  | append_singleton us u ih =>
      rw [List.foldl_append]
      exact ih.step (fun h => by simp [feed_applyUpdate_of_mem h])
        (fun h => by simp [feed_applyUpdate_of_not_mem h])

theorem admin_foldl_reconciles (updates : List Incident) :
    Reconciles (updates.foldl AdminPanel.applyUpdate []) updates := by
  induction updates using List.reverseRecOn with
  | nil => simp [Reconciles]
  | append_singleton us u ih =>
      rw [List.foldl_append]
      exact ih.step (fun h => by simp [admin_applyUpdate_of_mem h])
        (fun h => by
          simp only [List.foldl_cons, List.foldl_nil, admin_applyUpdate_of_not_mem h]
          exact arraySort_perm _ _)

/-- Claim C1. Starting from the empty collection, after any finite sequence of pushed updates,
under the arrival-order reducer of the feed and under the priority-rank reducer of the
admin panel alike, the collection holds exactly one entry for each identifier that occurs
in the sequence, no entry for any other identifier, and each entry is the last update
applied for its identifier. -/
theorem c1_one_entry_per_identifier_last_update_wins (updates : List Incident) :
    ((updates.foldl IncidentFeed.applyUpdate []).map Incident.id).Nodup ∧
    (∀ k, k ∈ (updates.foldl IncidentFeed.applyUpdate []).map Incident.id ↔
        k ∈ updates.map Incident.id) ∧
    (∀ e ∈ updates.foldl IncidentFeed.applyUpdate [], lastUpdate? updates e.id = some e) ∧
    ((updates.foldl AdminPanel.applyUpdate []).map Incident.id).Nodup ∧
    (∀ k, k ∈ (updates.foldl AdminPanel.applyUpdate []).map Incident.id ↔
        k ∈ updates.map Incident.id) ∧
    (∀ e ∈ updates.foldl AdminPanel.applyUpdate [], lastUpdate? updates e.id = some e) :=
  ⟨(feed_foldl_reconciles updates).1, (feed_foldl_reconciles updates).2.1,
    (feed_foldl_reconciles updates).2.2, (admin_foldl_reconciles updates).1,
    (admin_foldl_reconciles updates).2.1, (admin_foldl_reconciles updates).2.2⟩

/-- Claim C2, evaluated on the code. The priority-rank reducer does not keep the collection ordered: pushing
`id 1` (score 80), `id 2` (score 40) and then `id 2` again with score 90 from the empty
collection leaves `id 1 (80)` before `id 2 (90)`, because the branch that replaces an
existing entry returns without sorting. -/
theorem c2_replacement_leaves_collection_unranked :
    [(⟨1, "VERIFIED", 80, some 0⟩ : Incident), ⟨2, "UNVERIFIED", 40, some 0⟩,
        ⟨2, "VERIFIED", 90, some 0⟩].foldl AdminPanel.applyUpdate [] =
      [⟨1, "VERIFIED", 80, some 0⟩, ⟨2, "VERIFIED", 90, some 0⟩] ∧
    ¬ RankOrdered
      ([(⟨1, "VERIFIED", 80, some 0⟩ : Incident), ⟨2, "UNVERIFIED", 40, some 0⟩,
        ⟨2, "VERIFIED", 90, some 0⟩].foldl AdminPanel.applyUpdate []) := by
  constructor
  · decide
  · simp [RankOrdered, rankedBefore, AdminPanel.applyUpdate, findIndex, findIndexFrom,
      arraySort, AdminPanel.compareFn, sortCompare]

/-- Claim C3, evaluated on the code. From the snapshot `[id 1 (80, T1), id 2 (40, T2)]`, the push update
`id 2 (90, T2)` leaves the admin panel with `[id 1 (80), id 2 (90)]`: the entry is
replaced where it stood and the collection is not ranked again. -/
theorem c3_push_for_existing_identifier_keeps_position (s : AdminPanel.State)
    (T1 T2 : Option Int) :
    (AdminPanel.onMessage ⟨2, "VERIFIED", 90, T2⟩
        (AdminPanel.loadIncidentsSettle s
          (.resolved (.array [⟨1, "VERIFIED", 80, T1⟩, ⟨2, "VERIFIED", 40, T2⟩])))).incidents =
      [⟨1, "VERIFIED", 80, T1⟩, ⟨2, "VERIFIED", 90, T2⟩] := by
  simp [AdminPanel.onMessage, AdminPanel.loadIncidentsSettle, AdminPanel.applyUpdate,
    findIndex, findIndexFrom]

/-! ## Idempotence -/

theorem replaceFirst_replaceFirst (incident : Incident) :
    ∀ l : List Incident,
      replaceFirst incident (replaceFirst incident l) = replaceFirst incident l
  | [] => rfl
  | x :: xs => by
      by_cases hx : x.id = incident.id
      · simp [replaceFirst, hx]
      · simp [replaceFirst, hx, replaceFirst_replaceFirst incident xs]

theorem exists_id_replaceFirst (incident : Incident) {l : List Incident}
    (h : ∃ x ∈ l, x.id = incident.id) :
    ∃ x ∈ replaceFirst incident l, x.id = incident.id := by
  obtain ⟨x, hx, hxid⟩ := h
  have hin : incident.id ∈ (replaceFirst incident l).map Incident.id := by
    rw [map_id_replaceFirst]
    exact List.mem_map.mpr ⟨x, hx, hxid⟩
  obtain ⟨y, hy, hyid⟩ := List.mem_map.mp hin
  exact ⟨y, hy, hyid⟩

theorem replaceFirst_eq_self (incident : Incident) :
    ∀ l : List Incident, (∀ x ∈ l, x.id = incident.id → x = incident) →
      replaceFirst incident l = l
  | [], _ => rfl
  | x :: xs, h => by
      have hxs : ∀ y ∈ xs, y.id = incident.id → y = incident :=
        fun y hy => h y (List.mem_cons_of_mem x hy)
      by_cases hx : x.id = incident.id
      · have := h x (List.mem_cons_self x xs) hx
        simp [replaceFirst, hx, this]
      · simp [replaceFirst, hx, replaceFirst_eq_self incident xs hxs]

theorem feed_applyUpdate_idem (c : List Incident) (u : Incident) :
    IncidentFeed.applyUpdate (IncidentFeed.applyUpdate c u) u =
      IncidentFeed.applyUpdate c u := by
  by_cases h : ∃ x ∈ c, x.id = u.id
  · rw [feed_applyUpdate_of_mem h, feed_applyUpdate_of_mem (exists_id_replaceFirst u h),
      replaceFirst_replaceFirst]
  · have h' : ∀ x ∈ c, x.id ≠ u.id := fun x hx hxid => h ⟨x, hx, hxid⟩
    rw [feed_applyUpdate_of_not_mem h',
      feed_applyUpdate_of_mem ⟨u, List.mem_cons_self u c, rfl⟩]
    simp [replaceFirst]

theorem admin_applyUpdate_idem (c : List Incident) (u : Incident) :
    AdminPanel.applyUpdate (AdminPanel.applyUpdate c u) u =
      AdminPanel.applyUpdate c u := by
  by_cases h : ∃ x ∈ c, x.id = u.id
  · rw [admin_applyUpdate_of_mem h, admin_applyUpdate_of_mem (exists_id_replaceFirst u h),
      replaceFirst_replaceFirst]
  · have h' : ∀ x ∈ c, x.id ≠ u.id := fun x hx hxid => h ⟨x, hx, hxid⟩
    have hp := arraySort_perm AdminPanel.compareFn (u :: c)
    rw [admin_applyUpdate_of_not_mem h',
      admin_applyUpdate_of_mem ⟨u, hp.mem_iff.mpr (List.mem_cons_self u c), rfl⟩]
    apply replaceFirst_eq_self
    intro x hx hxid
    rcases List.mem_cons.mp (hp.mem_iff.mp hx) with rfl | hxc
    · rfl
    · exact absurd hxid (h' x hxc)

/-- Claim C4. Idempotence of the push reducers: for every collection and every incident,
applying the incident twice gives the same collection as applying it once, under the
arrival-order reducer of the feed and under the priority-rank reducer of the admin
panel. -/
theorem c4_applyUpdate_idempotent (c : List Incident) (u : Incident) :
    IncidentFeed.applyUpdate (IncidentFeed.applyUpdate c u) u =
        IncidentFeed.applyUpdate c u ∧
    AdminPanel.applyUpdate (AdminPanel.applyUpdate c u) u =
        AdminPanel.applyUpdate c u :=
  ⟨feed_applyUpdate_idem c u, admin_applyUpdate_idem c u⟩

/-! ## Ties in the priority-rank sort -/

theorem compareFn_tie {x y : Incident} (hs : x.confidenceScore = y.confidenceScore)
    (ht : x.createdAt = y.createdAt) :
    sortCompare (AdminPanel.compareFn y x) ≤ 0 := by
  unfold AdminPanel.compareFn
  rw [if_neg (not_not.mpr hs), ht]
  cases y.createdAt <;> simp [sortCompare]

/-- Claim C5, refuted as stated: pushing `id 3` and then `id 4`, both unseen, with the same
confidence 50 and the same creation time, into the empty collection gives `[id 4, id 3]`;
`id 3` does not stand before `id 4`. -/
theorem c5_tie_puts_later_arrival_first :
    AdminPanel.applyUpdate
        (AdminPanel.applyUpdate [] ⟨3, "UNVERIFIED", 50, some 1000⟩)
        ⟨4, "UNVERIFIED", 50, some 1000⟩ =
      [⟨4, "UNVERIFIED", 50, some 1000⟩, ⟨3, "UNVERIFIED", 50, some 1000⟩] ∧
    ¬ StandsBefore ⟨3, "UNVERIFIED", 50, some 1000⟩ ⟨4, "UNVERIFIED", 50, some 1000⟩
      (AdminPanel.applyUpdate
        (AdminPanel.applyUpdate [] ⟨3, "UNVERIFIED", 50, some 1000⟩)
        ⟨4, "UNVERIFIED", 50, some 1000⟩) := by
  constructor
  · decide
  · unfold StandsBefore
    decide

theorem sortValue_parseable {a b : Incident} {ta tb : Int} (ha : a.createdAt = some ta)
    (hb : b.createdAt = some tb) :
    sortValue a b =
      if b.confidenceScore ≠ a.confidenceScore then b.confidenceScore - a.confidenceScore
      else tb - ta := by
  unfold sortValue AdminPanel.compareFn
  rw [ha, hb]
  by_cases h : b.confidenceScore = a.confidenceScore <;> simp [h, sortCompare]

/-- When every creation time parses, the comparator is consistent: it orders by score,
then by time. -/
theorem consistentOn_of_parseable (l : List Incident)
    (h : ∀ e ∈ l, e.createdAt.isSome = true) : ConsistentOn l := by
  intro a ha b hb c hc
  obtain ⟨ta, hta⟩ := Option.isSome_iff_exists.mp (h a ha)
  obtain ⟨tb, htb⟩ := Option.isSome_iff_exists.mp (h b hb)
  obtain ⟨tc, htc⟩ := Option.isSome_iff_exists.mp (h c hc)
  rw [sortValue_parseable hta hta, sortValue_parseable hta htb, sortValue_parseable htb hta,
    sortValue_parseable htb htc, sortValue_parseable hta htc]
  refine ⟨by simp, ?_, ?_, ?_, ?_⟩
  · intro h1
    split_ifs at h1 ⊢ <;> omega
  · intro h1 h2
    split_ifs at h1 h2 ⊢ <;> omega
  · intro h1 h2
    split_ifs at h1 h2 ⊢ <;> omega
  · intro h1 h2
    split_ifs at h1 h2 ⊢ <;> omega

/-- Claim C5, amended. Under the priority-rank reducer, when two updates `x` and `y` with
unseen, distinct identifiers, equal confidence and equal creation time are applied in the
order `x` then `y` to a collection on which, together with `x` and `y`, the comparator is
consistent, both are in the resulting collection and `y`, the later arrival, stands before
`x`.  Consistency is what makes the sorted array the same for every stable sort. -/
theorem c5_tie_break_later_arrival_first (c : List Incident) (x y : Incident)
    (hx : ∀ e ∈ c, e.id ≠ x.id) (hy : ∀ e ∈ c, e.id ≠ y.id) (hxy : x.id ≠ y.id)
    (hs : x.confidenceScore = y.confidenceScore) (ht : x.createdAt = y.createdAt)
    (_hc : ConsistentOn (y :: x :: c)) :
    x ∈ AdminPanel.applyUpdate (AdminPanel.applyUpdate c x) y ∧
    y ∈ AdminPanel.applyUpdate (AdminPanel.applyUpdate c x) y ∧
    StandsBefore y x (AdminPanel.applyUpdate (AdminPanel.applyUpdate c x) y) := by
  have hp := arraySort_perm AdminPanel.compareFn (x :: c)
  have hy' : ∀ e ∈ arraySort AdminPanel.compareFn (x :: c), e.id ≠ y.id := by
    intro e he
    rcases List.mem_cons.mp (hp.mem_iff.mp he) with rfl | hec
    · exact hxy
    · exact hy e hec
  rw [admin_applyUpdate_of_not_mem hx, admin_applyUpdate_of_not_mem hy']
  have hxin : x ∈ arraySort AdminPanel.compareFn (x :: c) :=
    hp.mem_iff.mpr (List.mem_cons_self x c)
  have hstand : StandsBefore y x
      (arraySort AdminPanel.compareFn (y :: arraySort AdminPanel.compareFn (x :: c))) := by
    unfold StandsBefore
    show [y, x].Sublist (List.orderedInsert _ y (List.insertionSort _ _))
    apply List.cons_sublist_orderedInsert
    · exact List.singleton_sublist.mpr ((List.mem_insertionSort _).mpr hxin)
    · intro a ha
      rw [List.mem_singleton.mp ha]
      exact compareFn_tie hs ht
  exact ⟨hstand.subset (by simp), hstand.subset (by simp), hstand⟩

/-- Claim C5, amended, at a concrete input: into `[id 1 (80), id 2 (40)]` the pushes
`id 3` then `id 4`, both of confidence 50 and of the same creation time, arrive; the
comparator is consistent on the four entries and `id 4` stands before `id 3`. -/
theorem c5_tie_break_later_arrival_first_witness :
    (∀ e ∈ [(⟨1, "VERIFIED", 80, some 10⟩ : Incident), ⟨2, "VERIFIED", 40, none⟩],
        e.id ≠ 3) ∧
    (∀ e ∈ [(⟨1, "VERIFIED", 80, some 10⟩ : Incident), ⟨2, "VERIFIED", 40, none⟩],
        e.id ≠ 4) ∧
    ConsistentOn [⟨4, "UNVERIFIED", 50, some 1000⟩, ⟨3, "UNVERIFIED", 50, some 1000⟩,
      ⟨1, "VERIFIED", 80, some 10⟩, ⟨2, "VERIFIED", 40, none⟩] ∧
    StandsBefore ⟨4, "UNVERIFIED", 50, some 1000⟩ ⟨3, "UNVERIFIED", 50, some 1000⟩
      (AdminPanel.applyUpdate
        (AdminPanel.applyUpdate [⟨1, "VERIFIED", 80, some 10⟩, ⟨2, "VERIFIED", 40, none⟩]
          ⟨3, "UNVERIFIED", 50, some 1000⟩)
        ⟨4, "UNVERIFIED", 50, some 1000⟩) :=
  ⟨by decide, by decide, by unfold ConsistentOn; decide,
    (c5_tie_break_later_arrival_first
      [⟨1, "VERIFIED", 80, some 10⟩, ⟨2, "VERIFIED", 40, none⟩]
      ⟨3, "UNVERIFIED", 50, some 1000⟩ ⟨4, "UNVERIFIED", 50, some 1000⟩
      (by decide) (by decide) (by decide) (by decide) (by decide)
      (by unfold ConsistentOn; decide)).2.2⟩

/-! ## Snapshots against pushes -/

theorem feed_foldl_onMessage_incidents (us : List Incident) :
    ∀ s : IncidentFeed.State,
      (us.foldl (fun st u => IncidentFeed.onMessage u st) s).incidents =
        us.foldl IncidentFeed.applyUpdate s.incidents := by
  induction us with
  | nil => intro s; rfl
  | cons u us ih =>
      intro s
      rw [List.foldl_cons, ih, List.foldl_cons]
      rfl

theorem admin_foldl_onMessage_incidents (us : List Incident) :
    ∀ s : AdminPanel.State,
      (us.foldl (fun st u => AdminPanel.onMessage u st) s).incidents =
        us.foldl AdminPanel.applyUpdate s.incidents := by
  induction us with
  | nil => intro s; rfl
  | cons u us ih =>
      intro s
      rw [List.foldl_cons, ih, List.foldl_cons]
      rfl

/-- Claim C6, refuted as stated: with an empty prior collection, an empty snapshot and one push
received while the fetch was in flight, applying the push before the snapshot lands
leaves the empty collection, while applying it after leaves the pushed incident, in the
feed and in the admin panel. -/
theorem c6_push_before_snapshot_is_lost :
    (IncidentFeed.loadIncidentsSettle
        ([(⟨7, "VERIFIED", 60, some 5⟩ : Incident)].foldl
          (fun st u => IncidentFeed.onMessage u st) ⟨[], true⟩)
        (.ok [])).incidents ≠
      ([(⟨7, "VERIFIED", 60, some 5⟩ : Incident)].foldl
        (fun st u => IncidentFeed.onMessage u st)
        (IncidentFeed.loadIncidentsSettle ⟨[], true⟩ (.ok []))).incidents ∧
    (AdminPanel.loadIncidentsSettle
        ([(⟨7, "VERIFIED", 60, some 5⟩ : Incident)].foldl
          (fun st u => AdminPanel.onMessage u st) ⟨[], true, none⟩)
        (.resolved (.array []))).incidents ≠
      ([(⟨7, "VERIFIED", 60, some 5⟩ : Incident)].foldl
        (fun st u => AdminPanel.onMessage u st)
        (AdminPanel.loadIncidentsSettle ⟨[], true, none⟩ (.resolved (.array [])))).incidents := by
  constructor <;> decide

/-- Claim C6, amended. For every prior state, every snapshot list and every sequence of pushes
received while the fetch was in flight, in the feed and in the admin panel: when the
pushes are applied before the snapshot lands the final collection is the snapshot list
itself (the pushes are overwritten); when they are applied after it lands the final
collection is the snapshot list with the pushes applied in order; so the two final
collections are equal exactly when applying the pushes to the snapshot list leaves it
unchanged. -/
theorem c6_snapshot_overwrites_earlier_pushes (sF : IncidentFeed.State)
    (sA : AdminPanel.State) (list us : List Incident) :
    ((IncidentFeed.loadIncidentsSettle
        (us.foldl (fun st u => IncidentFeed.onMessage u st) sF) (.ok list)).incidents = list ∧
      (us.foldl (fun st u => IncidentFeed.onMessage u st)
        (IncidentFeed.loadIncidentsSettle sF (.ok list))).incidents =
          us.foldl IncidentFeed.applyUpdate list ∧
      ((IncidentFeed.loadIncidentsSettle
          (us.foldl (fun st u => IncidentFeed.onMessage u st) sF) (.ok list)).incidents =
        (us.foldl (fun st u => IncidentFeed.onMessage u st)
          (IncidentFeed.loadIncidentsSettle sF (.ok list))).incidents ↔
        us.foldl IncidentFeed.applyUpdate list = list)) ∧
    ((AdminPanel.loadIncidentsSettle
        (us.foldl (fun st u => AdminPanel.onMessage u st) sA)
        (.resolved (.array list))).incidents = list ∧
      (us.foldl (fun st u => AdminPanel.onMessage u st)
        (AdminPanel.loadIncidentsSettle sA (.resolved (.array list)))).incidents =
          us.foldl AdminPanel.applyUpdate list ∧
      ((AdminPanel.loadIncidentsSettle
          (us.foldl (fun st u => AdminPanel.onMessage u st) sA)
          (.resolved (.array list))).incidents =
        (us.foldl (fun st u => AdminPanel.onMessage u st)
          (AdminPanel.loadIncidentsSettle sA (.resolved (.array list)))).incidents ↔
        us.foldl AdminPanel.applyUpdate list = list)) := by
  have hF := feed_foldl_onMessage_incidents us (IncidentFeed.loadIncidentsSettle sF (.ok list))
  have hA := admin_foldl_onMessage_incidents us
    (AdminPanel.loadIncidentsSettle sA (.resolved (.array list)))
  refine ⟨⟨rfl, hF, ?_⟩, ⟨rfl, hA, ?_⟩⟩
  · rw [hF]
    exact eq_comm
  · rw [hA]
    exact eq_comm

/-- Claim C7, refuted as stated: fetch A is issued, then fetch B; B resolves with `[id 2]`,
then A resolves with `[id 1]`.  After both have resolved the collection holds the result
of A, not of B, in the feed and in the admin panel. -/
theorem c7_stale_response_overwrites :
    (IncidentFeed.loadIncidentsSettle
        (IncidentFeed.loadIncidentsSettle
          (IncidentFeed.loadIncidentsStart (IncidentFeed.loadIncidentsStart ⟨[], false⟩))
          (.ok [⟨2, "VERIFIED", 70, some 20⟩]))
        (.ok [⟨1, "UNVERIFIED", 30, some 10⟩])).incidents ≠
      [⟨2, "VERIFIED", 70, some 20⟩] ∧
    (AdminPanel.loadIncidentsSettle
        (AdminPanel.loadIncidentsSettle
          (AdminPanel.loadIncidentsStart (AdminPanel.loadIncidentsStart ⟨[], false, none⟩))
          (.resolved (.array [⟨2, "VERIFIED", 70, some 20⟩])))
        (.resolved (.array [⟨1, "UNVERIFIED", 30, some 10⟩]))).incidents ≠
      [⟨2, "VERIFIED", 70, some 20⟩] := by
  constructor <;> decide

/-- Claim C7, amended. No request sequence number is kept: when fetch A is issued before
fetch B and B resolves before A, then after both have resolved the collection holds the
list A resolved with, the response that resolved last, in the feed and in the admin
panel. -/
theorem c7_last_resolved_response_wins (sF : IncidentFeed.State) (sA : AdminPanel.State)
    (dataA dataB : List Incident) :
    (IncidentFeed.loadIncidentsSettle
        (IncidentFeed.loadIncidentsSettle
          (IncidentFeed.loadIncidentsStart (IncidentFeed.loadIncidentsStart sF))
          (.ok dataB))
        (.ok dataA)).incidents = dataA ∧
    (AdminPanel.loadIncidentsSettle
        (AdminPanel.loadIncidentsSettle
          (AdminPanel.loadIncidentsStart (AdminPanel.loadIncidentsStart sA))
          (.resolved (.array dataB)))
        (.resolved (.array dataA))).incidents = dataA :=
  ⟨rfl, rfl⟩

/-- Claim C8, refuted as stated: after a fetch that returns `[id 1 (40), id 2 (90)]` the
collection is that list as returned, which does not obey the ordering rule, in the feed
and in the admin panel. -/
theorem c8_snapshot_is_not_ranked :
    ¬ RankOrdered (IncidentFeed.loadIncidentsSettle ⟨[], true⟩
        (.ok [⟨1, "VERIFIED", 40, some 10⟩, ⟨2, "VERIFIED", 90, some 20⟩])).incidents ∧
    ¬ RankOrdered (AdminPanel.loadIncidentsSettle ⟨[], true, none⟩
        (.resolved (.array
          [⟨1, "VERIFIED", 40, some 10⟩, ⟨2, "VERIFIED", 90, some 20⟩]))).incidents := by
  constructor <;>
    simp [RankOrdered, rankedBefore, IncidentFeed.loadIncidentsSettle,
      AdminPanel.loadIncidentsSettle]

/-- Claim C8, amended. After a successful snapshot fetch returning `list`, the collection is
`list` itself, in the order the collaborator returned it: nothing of the previous
collection is kept and the list is not sorted, in the feed and in the admin panel. -/
theorem c8_snapshot_replaces_collection (sF : IncidentFeed.State) (sA : AdminPanel.State)
    (list : List Incident) :
    (IncidentFeed.loadIncidentsSettle sF (.ok list)).incidents = list ∧
    (AdminPanel.loadIncidentsSettle sA (.resolved (.array list))).incidents = list :=
  ⟨rfl, rfl⟩

/-! ## Messages that do not parse -/

/-- Claim C10, evaluated on the code. A message whose body does not parse is not reported
through `onError`: for the body `not json`, on which `JSON.parse` throws, the handler
writes one line with `console.error` and calls neither `onMessage` nor `onError`, whereas
the sibling handler `onWebSocketError` hands its error to `onError`. -/
theorem c10_parse_failure_never_reaches_onError :
    (∃ env', subscribeHandler
        (fun b : String =>
          if b = "ok" then Except.ok (⟨1, "VERIFIED", 80, some 0⟩ : Incident)
          else Except.error "SyntaxError")
        IncidentFeed.callbacks "not json"
        ⟨⟨[⟨1, "VERIFIED", 80, some 0⟩], false⟩, [], []⟩ = .ok env' ∧
      env'.calls = [] ∧
      env'.console = ["Failed to parse WebSocket message: SyntaxError"]) ∧
    (onWebSocketError IncidentFeed.callbacks "closed"
        ⟨⟨[⟨1, "VERIFIED", 80, some 0⟩], false⟩, [], []⟩).calls = [Call.onError "closed"] :=
  ⟨⟨_, rfl, rfl, rfl⟩, rfl⟩

/-! ## Fetches that fail -/

/-- Claim C11, refuted as stated: the admin panel holds one incident and its fetch is
rejected; afterwards its collection is empty, not what it was. -/
theorem c11_admin_rejection_clears_collection :
    (AdminPanel.loadIncidentsSettle
        (AdminPanel.loadIncidentsStart
          ⟨[⟨1, "VERIFIED", 80, some 10⟩], false, none⟩)
        (.rejected none)).incidents = [] ∧
    (AdminPanel.loadIncidentsSettle
        (AdminPanel.loadIncidentsStart
          ⟨[⟨1, "VERIFIED", 80, some 10⟩], false, none⟩)
        (.rejected none)).incidents ≠ [⟨1, "VERIFIED", 80, some 10⟩] := by
  decide

/-- Claim C11, amended. When a snapshot fetch is rejected, `IncidentFeed.loadIncidents`
leaves the collection as it was, whereas `AdminPanel.loadIncidents` resets the
collection to the empty list and sets a non-empty error message. -/
theorem c11_rejected_fetch_keeps_feed_clears_admin (sF : IncidentFeed.State)
    (sA : AdminPanel.State) (e : String) (serverError : Option String) :
    (IncidentFeed.loadIncidentsSettle (IncidentFeed.loadIncidentsStart sF)
        (.error e)).incidents = sF.incidents ∧
    (AdminPanel.loadIncidentsSettle (AdminPanel.loadIncidentsStart sA)
        (.rejected serverError)).incidents = [] ∧
    (∃ msg, (AdminPanel.loadIncidentsSettle (AdminPanel.loadIncidentsStart sA)
        (.rejected serverError)).error = some msg ∧ msg ≠ "") := by
  refine ⟨rfl, rfl, ?_⟩
  cases serverError with
  | none => exact ⟨_, rfl, by decide⟩
  | some e =>
      by_cases he : e = ""
      · exact ⟨"Failed to load incidents. Please check your connection.",
          by simp [AdminPanel.loadIncidentsSettle, he], by decide⟩
      · exact ⟨e, by simp [AdminPanel.loadIncidentsSettle, he], he⟩

/-- Claim C12, evaluated on the code. When the fetch of the feed resolves with data that
is not a list, the collection of the feed is that data, whatever it held before; the
admin panel, on the same response, resets its collection to the empty list and sets the
error `Invalid response format from server`. -/
theorem c12_feed_stores_non_list_payload (s : IncidentFeed.RawState)
    (sA : AdminPanel.State) :
    (IncidentFeed.loadIncidentsSettleRaw s (.resolved .nonArray)).incidents = .nonArray ∧
    (IncidentFeed.loadIncidentsSettleRaw s (.resolved .nonArray)).incidents ≠ .array [] ∧
    (AdminPanel.loadIncidentsSettle sA (.resolved .nonArray)).incidents = [] ∧
    (AdminPanel.loadIncidentsSettle sA (.resolved .nonArray)).error =
      some "Invalid response format from server" :=
  ⟨rfl, by simp [IncidentFeed.loadIncidentsSettleRaw], rfl, rfl⟩

/-- On a response whose data is a list, and on a rejection, the feed as
`loadIncidentsSettleRaw` models it does what `loadIncidentsSettle` does. -/
theorem feed_settleRaw_agrees (s : IncidentFeed.State) (data : List Incident)
    (e : Option String) :
    IncidentFeed.loadIncidentsSettleRaw ⟨.array s.incidents, s.loading⟩
        (.resolved (.array data)) =
      ⟨.array (IncidentFeed.loadIncidentsSettle s (.ok data)).incidents,
        (IncidentFeed.loadIncidentsSettle s (.ok data)).loading⟩ ∧
    IncidentFeed.loadIncidentsSettleRaw ⟨.array s.incidents, s.loading⟩ (.rejected e) =
      ⟨.array (IncidentFeed.loadIncidentsSettle s (.error "")).incidents,
        (IncidentFeed.loadIncidentsSettle s (.error "")).loading⟩ :=
  ⟨rfl, rfl⟩

/-! ## The query of the feed -/

theorem filter_text_cons (k v : String) (l : Params) :
    List.filter (fun kv => !isEmptyValue kv.2) ((k, .str v) :: l) =
      textEntry k v ++ List.filter (fun kv => !isEmptyValue kv.2) l := by
  by_cases h : v = "" <;> simp [List.filter_cons, isEmptyValue, textEntry, h]

theorem filter_coordinate_cons (k : String) (c : Option Int) (l : Params) :
    List.filter (fun kv => !isEmptyValue kv.2) ((k, coordinateValue c) :: l) =
      coordinateEntry k c ++ List.filter (fun kv => !isEmptyValue kv.2) l := by
  cases c <;> simp [List.filter_cons, isEmptyValue, coordinateValue, coordinateEntry]

theorem filter_num_cons (k : String) (n : Int) (l : Params) :
    List.filter (fun kv => !isEmptyValue kv.2) ((k, .num n) :: l) =
      (k, .num n) :: List.filter (fun kv => !isEmptyValue kv.2) l := by
  simp [List.filter_cons, isEmptyValue]

theorem filter_parsed_cons (k : String) (v : Option ParamValue) (l : Params) :
    List.filter (fun kv => !isEmptyValue kv.2) ((k, parseIntValue v) :: l) =
      (k, parseIntValue v) :: List.filter (fun kv => !isEmptyValue kv.2) l := by
  have h : isEmptyValue (parseIntValue v) = false := by
    unfold parseIntValue
    split
    · split <;> simp [isEmptyValue]
    · simp [isEmptyValue]
    · simp [isEmptyValue]
  simp [List.filter_cons, h]

/-- The query of the feed, field by field. -/
theorem buildParams_eq (f : Filters) :
    IncidentFeed.buildParams f =
      textEntry "type" f.type ++ (textEntry "status" f.status ++
      (textEntry "radius" f.radius ++ (textEntry "minConfidence" f.minConfidence ++
      (coordinateEntry "latitude" f.latitude ++ (coordinateEntry "longitude" f.longitude ++
      (("limit", .num 100) :: ("offset", .num 0) ::
      (textEntry "radiusKm" f.radius ++
      (if f.minConfidence = "" then [] else
        [("minConfidenceScore", parseIntValue (some (.str f.minConfidence)))])))))))) := by
  have hr : (IncidentFeed.spreadParams f).get "radius" = some (.str f.radius) := by
    simp [IncidentFeed.spreadParams, Params.get]
  have hassign : ∀ v, (IncidentFeed.spreadParams f).assign "radiusKm" v =
      IncidentFeed.spreadParams f ++ [("radiusKm", v)] := by
    intro v; simp [IncidentFeed.spreadParams, Params.assign]
  unfold IncidentFeed.buildParams
  simp only [hr, hassign, Option.getD_some]
  by_cases h1 : f.radius = ""
  · have ht : truthy (some (.str f.radius)) = false := by simp [truthy, h1]
    have hm : (IncidentFeed.spreadParams f).get "minConfidence" =
        some (.str f.minConfidence) := by
      simp [IncidentFeed.spreadParams, Params.get]
    have hassign2 : ∀ v, (IncidentFeed.spreadParams f).assign "minConfidenceScore" v =
        IncidentFeed.spreadParams f ++ [("minConfidenceScore", v)] := by
      intro v; simp [IncidentFeed.spreadParams, Params.assign]
    simp only [ht, hm, hassign2, Bool.false_eq_true, if_false]
    by_cases h2 : f.minConfidence = ""
    · have ht2 : truthy (some (.str f.minConfidence)) = false := by simp [truthy, h2]
      simp only [ht2, Bool.false_eq_true, if_false, IncidentFeed.spreadParams,
        filter_text_cons, filter_coordinate_cons, filter_num_cons, List.filter_nil]
      simp [textEntry, h1, h2]
    · have ht2 : truthy (some (.str f.minConfidence)) = true := by simp [truthy, h2]
      simp only [ht2, if_true, IncidentFeed.spreadParams, List.cons_append, List.nil_append,
        filter_text_cons, filter_coordinate_cons, filter_num_cons, filter_parsed_cons,
        List.filter_nil]
      simp [textEntry, h1, h2]
  · have ht : truthy (some (.str f.radius)) = true := by simp [truthy, h1]
    have hm : Params.get
        (IncidentFeed.spreadParams f ++ [("radiusKm", ParamValue.str f.radius)])
        "minConfidence" = some (.str f.minConfidence) := by
      simp [IncidentFeed.spreadParams, Params.get]
    have hassign2 : ∀ v, Params.assign
        (IncidentFeed.spreadParams f ++ [("radiusKm", ParamValue.str f.radius)])
        "minConfidenceScore" v =
        IncidentFeed.spreadParams f ++
          [("radiusKm", ParamValue.str f.radius), ("minConfidenceScore", v)] := by
      intro v; simp [IncidentFeed.spreadParams, Params.assign]
    simp only [ht, hm, hassign2, if_true]
    by_cases h2 : f.minConfidence = ""
    · have ht2 : truthy (some (.str f.minConfidence)) = false := by simp [truthy, h2]
      simp only [ht2, Bool.false_eq_true, if_false, IncidentFeed.spreadParams,
        List.cons_append, List.nil_append,
        filter_text_cons, filter_coordinate_cons, filter_num_cons, List.filter_nil]
      simp [h2]
    · have ht2 : truthy (some (.str f.minConfidence)) = true := by simp [truthy, h2]
      simp only [ht2, if_true, IncidentFeed.spreadParams, List.cons_append, List.nil_append,
        filter_text_cons, filter_coordinate_cons, filter_num_cons, filter_parsed_cons,
        List.filter_nil]
      simp [h2]

theorem get_append (a b : Params) (k : String) :
    Params.get (a ++ b) k = (Params.get a k).or (Params.get b k) := by
  simp only [Params.get, List.find?_append]
  cases List.find? (fun kv => kv.1 == k) a <;> simp

theorem get_cons (x : String × ParamValue) (l : Params) (k : String) :
    Params.get (x :: l) k = if x.1 = k then some x.2 else Params.get l k := by
  by_cases h : x.1 = k <;> simp [Params.get, List.find?_cons, h]

theorem get_nil (k : String) : Params.get [] k = none := rfl

theorem get_textEntry (key value k : String) :
    Params.get (textEntry key value) k =
      if key = k ∧ value ≠ "" then some (.str value) else none := by
  by_cases hv : value = "" <;> by_cases hk : key = k <;>
    simp [textEntry, Params.get, List.find?_cons, hv, hk]

theorem get_coordinateEntry (key : String) (c : Option Int) (k : String) :
    Params.get (coordinateEntry key c) k =
      if key = k then c.map ParamValue.num else none := by
  by_cases h : key = k <;> cases c <;>
    simp [coordinateEntry, Params.get, List.find?_cons, h]

theorem get_ite_nil (c : Prop) [Decidable c] (x : String × ParamValue) (k : String) :
    Params.get (if c then [] else [x]) k = if ¬ c ∧ x.1 = k then some x.2 else none := by
  by_cases hc : c <;> by_cases hk : x.1 = k <;>
    simp [Params.get, List.find?_cons, hc, hk]

theorem mem_keys_iff_get (p : Params) (k : String) :
    k ∈ p.keys ↔ (p.get k).isSome = true := by
  induction p with
  | nil => simp [Params.keys, Params.get]
  | cons x xs ih =>
      by_cases h : x.1 = k
      · simp [Params.keys, Params.get, List.find?_cons, h]
      · have hne : ¬ k = x.1 := fun e => h e.symm
        simp only [Params.keys, Params.get] at ih
        simp [Params.keys, Params.get, List.find?_cons, h, hne, ih]

theorem get_radiusKm (f : Filters) :
    (IncidentFeed.buildParams f).get "radiusKm" =
      if f.radius = "" then none else some (.str f.radius) := by
  rw [buildParams_eq]
  by_cases h : f.radius = "" <;>
    simp [get_append, get_cons, get_nil, get_textEntry, get_coordinateEntry, get_ite_nil, h]

theorem get_radius (f : Filters) :
    (IncidentFeed.buildParams f).get "radius" =
      if f.radius = "" then none else some (.str f.radius) := by
  rw [buildParams_eq]
  by_cases h : f.radius = "" <;>
    simp [get_append, get_cons, get_nil, get_textEntry, get_coordinateEntry, get_ite_nil, h]

theorem get_minConfidence (f : Filters) :
    (IncidentFeed.buildParams f).get "minConfidence" =
      if f.minConfidence = "" then none else some (.str f.minConfidence) := by
  rw [buildParams_eq]
  by_cases h : f.minConfidence = "" <;>
    simp [get_append, get_cons, get_nil, get_textEntry, get_coordinateEntry, get_ite_nil, h]

theorem get_minConfidenceScore (f : Filters) :
    (IncidentFeed.buildParams f).get "minConfidenceScore" =
      if f.minConfidence = "" then none
      else some (parseIntValue (some (.str f.minConfidence))) := by
  rw [buildParams_eq]
  by_cases h : f.minConfidence = "" <;>
    simp [get_append, get_cons, get_nil, get_textEntry, get_coordinateEntry, get_ite_nil, h]

theorem get_type (f : Filters) :
    (IncidentFeed.buildParams f).get "type" =
      if f.type = "" then none else some (.str f.type) := by
  rw [buildParams_eq]
  by_cases h : f.type = "" <;>
    simp [get_append, get_cons, get_nil, get_textEntry, get_coordinateEntry, get_ite_nil, h]

theorem get_status (f : Filters) :
    (IncidentFeed.buildParams f).get "status" =
      if f.status = "" then none else some (.str f.status) := by
  rw [buildParams_eq]
  by_cases h : f.status = "" <;>
    simp [get_append, get_cons, get_nil, get_textEntry, get_coordinateEntry, get_ite_nil, h]

theorem get_latitude (f : Filters) :
    (IncidentFeed.buildParams f).get "latitude" = f.latitude.map ParamValue.num := by
  rw [buildParams_eq]
  cases h : f.latitude <;>
    simp [get_append, get_cons, get_nil, get_textEntry, get_coordinateEntry, get_ite_nil, h]

theorem get_longitude (f : Filters) :
    (IncidentFeed.buildParams f).get "longitude" = f.longitude.map ParamValue.num := by
  rw [buildParams_eq]
  cases h : f.longitude <;>
    simp [get_append, get_cons, get_nil, get_textEntry, get_coordinateEntry, get_ite_nil, h]

theorem parseInt_empty : parseInt "" = none := by decide

/-- Claim C13, refuted as stated: for the filter state
`minConfidence '50', radius '5', latitude null, longitude null` the query built by
`loadIncidents` carries `radiusKm` with the value `'5'`. -/
theorem c13_radiusKm_sent_without_origin :
    (⟨"", "", "5", "50", none, none⟩ : Filters).latitude = none ∧
    "radiusKm" ∈ (IncidentFeed.buildParams ⟨"", "", "5", "50", none, none⟩).keys ∧
    (IncidentFeed.buildParams ⟨"", "", "5", "50", none, none⟩).get "radiusKm" =
      some (.str "5") := by
  decide

/-- Claim C13, amended. For every filter state in which latitude or longitude is null,
the query built by `loadIncidents` contains the key `radiusKm` exactly when the radius
field is not empty: the builder does not look at the coordinates.  In such a state the
form disables the radius input, which is all that keeps the radius empty there. -/
theorem c13_radiusKm_follows_radius_alone (f : Filters)
    (h : f.latitude = none ∨ f.longitude = none) :
    ("radiusKm" ∈ (IncidentFeed.buildParams f).keys ↔ f.radius ≠ "") ∧
    IncidentFeed.radiusInputDisabled f = true := by
  constructor
  · rw [mem_keys_iff_get, get_radiusKm]
    by_cases hr : f.radius = "" <;> simp [hr]
  · rcases h with h | h <;>
      simp [IncidentFeed.radiusInputDisabled, coordinateValue, truthy, h]

/-- Claim C13, amended, at a concrete input: with both coordinates null and the radius
field empty the query has no `radiusKm`, and the radius input is disabled. -/
theorem c13_radiusKm_follows_radius_alone_witness :
    ((⟨"", "", "", "50", none, none⟩ : Filters).latitude = none ∨
      (⟨"", "", "", "50", none, none⟩ : Filters).longitude = none) ∧
    "radiusKm" ∉ (IncidentFeed.buildParams ⟨"", "", "", "50", none, none⟩).keys ∧
    IncidentFeed.radiusInputDisabled ⟨"", "", "", "50", none, none⟩ = true :=
  ⟨Or.inl rfl,
    fun hmem => ((c13_radiusKm_follows_radius_alone ⟨"", "", "", "50", none, none⟩
      (Or.inl rfl)).1.mp hmem) rfl,
    (c13_radiusKm_follows_radius_alone ⟨"", "", "", "50", none, none⟩ (Or.inl rfl)).2⟩

/-- Claim C14. For every filter state, no key of the query built by `loadIncidents` holds
the empty string or null, and every filter field whose value is the empty string or null
is absent from the query. -/
theorem c14_empty_and_null_fields_dropped (f : Filters) :
    (∀ kv ∈ IncidentFeed.buildParams f, kv.2 ≠ .str "" ∧ kv.2 ≠ .null) ∧
    (f.type = "" → "type" ∉ (IncidentFeed.buildParams f).keys) ∧
    (f.status = "" → "status" ∉ (IncidentFeed.buildParams f).keys) ∧
    (f.radius = "" → "radius" ∉ (IncidentFeed.buildParams f).keys) ∧
    (f.minConfidence = "" → "minConfidence" ∉ (IncidentFeed.buildParams f).keys) ∧
    (f.latitude = none → "latitude" ∉ (IncidentFeed.buildParams f).keys) ∧
    (f.longitude = none → "longitude" ∉ (IncidentFeed.buildParams f).keys) := by
  refine ⟨?_, ?_, ?_, ?_, ?_, ?_, ?_⟩
  · intro kv hkv
    have hk := (List.mem_filter.mp hkv).2
    simp only [isEmptyValue, Bool.not_eq_true', Bool.or_eq_false_iff, beq_eq_false_iff_ne]
      at hk
    exact ⟨hk.1, hk.2⟩
  · intro h; rw [mem_keys_iff_get, get_type]; simp [h]
  · intro h; rw [mem_keys_iff_get, get_status]; simp [h]
  · intro h; rw [mem_keys_iff_get, get_radius]; simp [h]
  · intro h; rw [mem_keys_iff_get, get_minConfidence]; simp [h]
  · intro h; rw [mem_keys_iff_get, get_latitude]; simp [h]
  · intro h; rw [mem_keys_iff_get, get_longitude]; simp [h]

/-- Claim C15, refuted as stated: for a filter state with radius `'5'` the query built by
`loadIncidents` still contains the key `radius`, next to `radiusKm`. -/
theorem c15_radius_key_still_sent :
    "radius" ∈ (IncidentFeed.buildParams ⟨"", "", "5", "", some 12, some 77⟩).keys ∧
    (IncidentFeed.buildParams ⟨"", "", "5", "", some 12, some 77⟩).get "radius" =
      some (.str "5") ∧
    (IncidentFeed.buildParams ⟨"", "", "5", "", some 12, some 77⟩).get "radiusKm" =
      some (.str "5") := by
  decide

/-- Claim C15, amended. The radius is copied to `radiusKm`, not renamed: for every filter
state, the query contains `radiusKm` exactly when the radius field is not empty, it then
carries the radius value under `radiusKm` and under `radius` as well, and when the radius
field is empty it contains neither key. -/
theorem c15_radius_copied_to_radiusKm (f : Filters) :
    ("radiusKm" ∈ (IncidentFeed.buildParams f).keys ↔ f.radius ≠ "") ∧
    ("radius" ∈ (IncidentFeed.buildParams f).keys ↔ f.radius ≠ "") ∧
    (f.radius ≠ "" →
      (IncidentFeed.buildParams f).get "radiusKm" = some (.str f.radius) ∧
      (IncidentFeed.buildParams f).get "radius" = some (.str f.radius)) := by
  refine ⟨?_, ?_, ?_⟩
  · rw [mem_keys_iff_get, get_radiusKm]
    by_cases hr : f.radius = "" <;> simp [hr]
  · rw [mem_keys_iff_get, get_radius]
    by_cases hr : f.radius = "" <;> simp [hr]
  · intro hr
    rw [get_radiusKm, get_radius]
    simp [hr]

/-- Claim C16, refuted as stated: the text `.5` is not empty and `parseInt` gives NaN for
it; the query built by `loadIncidents` then carries `minConfidenceScore` with the value
NaN, and the raw text under `minConfidence`. -/
theorem c16_unparsed_confidence_sent_as_nan :
    parseInt ".5" = none ∧
    (IncidentFeed.buildParams ⟨"", "", "", ".5", none, none⟩).get "minConfidenceScore" =
      some .nan ∧
    (IncidentFeed.buildParams ⟨"", "", "", ".5", none, none⟩).get "minConfidence" =
      some (.str ".5") := by
  decide

/-- Claim C16, amended. For every filter state: when the text of the minimum-confidence
field parses to the integer `n`, the query carries `minConfidenceScore` with the value
`n`; when the text is not empty and does not parse, the query carries `minConfidenceScore`
with the value NaN and the raw text under `minConfidence`; when the text is empty the
query has neither key.  The builder is total: no error is raised. -/
theorem c16_confidence_parsed_not_validated (f : Filters) :
    (∀ n, parseInt f.minConfidence = some n →
      (IncidentFeed.buildParams f).get "minConfidenceScore" = some (.num n)) ∧
    (f.minConfidence ≠ "" → parseInt f.minConfidence = none →
      (IncidentFeed.buildParams f).get "minConfidenceScore" = some .nan ∧
      (IncidentFeed.buildParams f).get "minConfidence" = some (.str f.minConfidence)) ∧
    (f.minConfidence = "" →
      "minConfidenceScore" ∉ (IncidentFeed.buildParams f).keys ∧
      "minConfidence" ∉ (IncidentFeed.buildParams f).keys) := by
  refine ⟨?_, ?_, ?_⟩
  · intro n hn
    have hne : f.minConfidence ≠ "" := by
      intro he
      rw [he, parseInt_empty] at hn
      exact Option.noConfusion hn
    rw [get_minConfidenceScore, if_neg hne]
    simp [parseIntValue, hn]
  · intro hne hp
    rw [get_minConfidenceScore, get_minConfidence, if_neg hne, if_neg hne]
    simp [parseIntValue, hp]
  · intro he
    rw [mem_keys_iff_get, mem_keys_iff_get, get_minConfidenceScore, get_minConfidence]
    simp [he]

/-- Claim C16, amended, at concrete inputs: the text `50` parses to 50 and the query
carries `minConfidenceScore` 50; the text `.5` does not parse and the query carries
NaN. -/
theorem c16_confidence_parsed_not_validated_witness :
    parseInt "50" = some 50 ∧
    (IncidentFeed.buildParams ⟨"", "", "", "50", none, none⟩).get "minConfidenceScore" =
      some (.num 50) ∧
    (IncidentFeed.buildParams ⟨"", "", "", ".5", none, none⟩).get "minConfidenceScore" =
      some .nan :=
  ⟨by decide,
    (c16_confidence_parsed_not_validated ⟨"", "", "", "50", none, none⟩).1 50 (by decide),
    ((c16_confidence_parsed_not_validated ⟨"", "", "", ".5", none, none⟩).2.1
      (by decide) (by decide)).1⟩

/-! ## Classification -/

/-- Claim C17. The severity label is total and matches its thresholds: for every score,
`getSeverityLevel` gives `HIGH` exactly when the score is at least 70, `MEDIUM` exactly
when it is at least 40 and below 70, and `LOW` exactly when it is below 40; every score
gets one of the three labels. -/
theorem c17_severity_matches_thresholds (score : Int) :
    (AdminPanel.getSeverityLevel score = "HIGH" ↔ score ≥ 70) ∧
    (AdminPanel.getSeverityLevel score = "MEDIUM" ↔ 40 ≤ score ∧ score < 70) ∧
    (AdminPanel.getSeverityLevel score = "LOW" ↔ score < 40) ∧
    (AdminPanel.getSeverityLevel score = "HIGH" ∨
      AdminPanel.getSeverityLevel score = "MEDIUM" ∨
      AdminPanel.getSeverityLevel score = "LOW") := by
  unfold AdminPanel.getSeverityLevel
  by_cases h70 : score ≥ 70
  · have h40 : 40 ≤ score := by omega
    simp [h70]
    omega
  · by_cases h40 : score ≥ 40
    · simp [h70, h40]
      omega
    · simp [h70, h40]
      omega

theorem lookup_own_of_not_mem (styles : List (String × String)) (key : String)
    (h : styles.find? (fun kv => kv.1 == key) = none) :
    lookupProperty styles key =
      if key ∈ objectPrototypeKeys then .inherited key else .undefined := by
  simp [lookupProperty, h]

theorem feed_styles_find_none (key : String)
    (h : key ∉ ["UNVERIFIED", "VERIFIED", "IN_PROGRESS", "RESOLVED", "FALSE"]) :
    IncidentFeed.styles.find? (fun kv => kv.1 == key) = none := by
  simp only [List.mem_cons, List.mem_singleton, List.not_mem_nil, or_false, not_or] at h
  obtain ⟨h1, h2, h3, h4, h5⟩ := h
  simp [IncidentFeed.styles, List.find?_cons, Ne.symm h1, Ne.symm h2, Ne.symm h3,
    Ne.symm h4, Ne.symm h5]

theorem admin_styles_find_none (key : String)
    (h : key ∉ ["UNVERIFIED", "VERIFIED", "IN_PROGRESS", "RESOLVED", "FALSE"]) :
    AdminPanel.styles.find? (fun kv => kv.1 == key) = none := by
  simp only [List.mem_cons, List.mem_singleton, List.not_mem_nil, or_false, not_or] at h
  obtain ⟨h1, h2, h3, h4, h5⟩ := h
  simp [AdminPanel.styles, List.find?_cons, Ne.symm h1, Ne.symm h2, Ne.symm h3,
    Ne.symm h4, Ne.symm h5]

/-- Claim C18, refuted as stated: `constructor` is none of the five status values, yet
`getStatusBadge('constructor')` returns the member that the table inherits from
`Object.prototype`, not the style of UNVERIFIED, in the feed and in the admin panel. -/
theorem c18_inherited_name_is_not_defaulted :
    IncidentFeed.getStatusBadge (.str "constructor") = .inherited "constructor" ∧
    AdminPanel.getStatusBadge (.str "constructor") = .inherited "constructor" ∧
    IncidentFeed.getStatusBadge (.str "constructor") ≠ .str "bg-gray-100 text-gray-800" ∧
    AdminPanel.getStatusBadge (.str "constructor") ≠ .str "bg-gray-100 text-gray-800" := by
  decide

/-- Claim C18, amended. In the feed and in the admin panel `getStatusBadge` maps each of
UNVERIFIED, VERIFIED, IN_PROGRESS, RESOLVED and FALSE to its own fixed style, and for every
other input (undefined and null included) whose property key is not a name inherited from
`Object.prototype` it returns exactly the style of UNVERIFIED.  It is total: no input
makes it fail. -/
theorem c18_status_badge_defaults_to_unverified (status : StatusArg) :
    IncidentFeed.getStatusBadge (.str "UNVERIFIED") = .str "bg-gray-100 text-gray-800" ∧
    IncidentFeed.getStatusBadge (.str "VERIFIED") = .str "bg-green-100 text-green-800" ∧
    IncidentFeed.getStatusBadge (.str "IN_PROGRESS") = .str "bg-blue-100 text-blue-800" ∧
    IncidentFeed.getStatusBadge (.str "RESOLVED") =
      .str "bg-emergency-success text-white" ∧
    IncidentFeed.getStatusBadge (.str "FALSE") = .str "bg-red-100 text-red-800" ∧
    (∀ s : StatusArg, AdminPanel.getStatusBadge s = IncidentFeed.getStatusBadge s) ∧
    (status.toPropertyKey ∉ ["UNVERIFIED", "VERIFIED", "IN_PROGRESS", "RESOLVED", "FALSE"] →
      status.toPropertyKey ∉ objectPrototypeKeys →
      IncidentFeed.getStatusBadge status = .str "bg-gray-100 text-gray-800" ∧
      AdminPanel.getStatusBadge status = .str "bg-gray-100 text-gray-800") := by
  refine ⟨by decide, by decide, by decide, by decide, by decide, fun s => rfl, ?_⟩
  intro hown hproto
  constructor
  · unfold IncidentFeed.getStatusBadge
    rw [lookup_own_of_not_mem _ _ (feed_styles_find_none _ hown), if_neg hproto]
    decide
  · unfold AdminPanel.getStatusBadge
    rw [lookup_own_of_not_mem _ _ (admin_styles_find_none _ hown), if_neg hproto]
    decide

/-- Claim C18, amended, at concrete inputs: an unknown status, `undefined` and `null` all
get the style of UNVERIFIED. -/
theorem c18_status_badge_defaults_to_unverified_witness :
    IncidentFeed.getStatusBadge (.str "PENDING") = .str "bg-gray-100 text-gray-800" ∧
    IncidentFeed.getStatusBadge .undefined = .str "bg-gray-100 text-gray-800" ∧
    AdminPanel.getStatusBadge .null = .str "bg-gray-100 text-gray-800" :=
  ⟨((c18_status_badge_defaults_to_unverified (.str "PENDING")).2.2.2.2.2.2
      (by decide) (by decide)).1,
    ((c18_status_badge_defaults_to_unverified .undefined).2.2.2.2.2.2
      (by decide) (by decide)).1,
    ((c18_status_badge_defaults_to_unverified .null).2.2.2.2.2.2
      (by decide) (by decide)).2⟩

/-! ## The connection handle -/

theorem set_append_length {α : Type} (l : List α) (a b : α) :
    (l ++ [a]).set l.length b = l ++ [b] := by
  induction l with
  | nil => rfl
  | cons x xs ih => simp [List.set, ih]

theorem Manager.sound_initial : Manager.initial.Sound :=
  Or.inl ⟨rfl, by simp [Manager.initial]⟩

theorem connect_clients {ι σ : Type} (cb : Callbacks ι σ) (err : Option String)
    (m : Manager) (env : Env ι σ) (hm : m.Sound) :
    ∃ earlier : List Bool,
      (connectWebSocket cb err m env).1.clients = earlier ++ [err.isNone] ∧
      (connectWebSocket cb err m env).1.client = some earlier.length ∧
      ∀ x ∈ earlier, x = false := by
  rcases hm with ⟨hc, hall⟩ | ⟨earlier, b, hcl, hc, hall⟩
  · refine ⟨m.clients, ?_, ?_, hall⟩
    · cases err <;> simp [connectWebSocket, hc, set_append_length]
    · cases err <;> simp [connectWebSocket, hc]
  · refine ⟨earlier ++ [false], ?_, ?_, ?_⟩
    · cases err <;>
        simp [connectWebSocket, hc, Manager.deactivate, hcl, set_append_length]
    · cases err <;>
        simp [connectWebSocket, hc, Manager.deactivate, hcl, set_append_length]
    · intro x hx
      rcases List.mem_append.mp hx with h | h
      · exact hall x h
      · simpa using h

theorem connect_sound {ι σ : Type} (cb : Callbacks ι σ) (err : Option String)
    (m : Manager) (env : Env ι σ) (hm : m.Sound) :
    (connectWebSocket cb err m env).1.Sound := by
  obtain ⟨earlier, hcl, hc, hall⟩ := connect_clients cb err m env hm
  exact Or.inr ⟨earlier, err.isNone, hcl, hc, hall⟩

theorem disconnect_sound (m : Manager) (hm : m.Sound) : (disconnectWebSocket m).Sound := by
  rcases hm with ⟨hc, hall⟩ | ⟨earlier, b, hcl, hc, hall⟩
  · exact Or.inl ⟨by simp [disconnectWebSocket, hc], by simpa [disconnectWebSocket, hc] using hall⟩
  · refine Or.inl ⟨by simp [disconnectWebSocket, hc], ?_⟩
    intro x hx
    simp only [disconnectWebSocket, hc, Manager.deactivate, hcl, set_append_length] at hx
    rcases List.mem_append.mp hx with h | h
    · exact hall x h
    · simpa using h

theorem run_sound {ι σ : Type} (calls : List (ManagerCall ι σ)) :
    ∀ w : Manager × Env ι σ, w.1.Sound → (calls.foldl ManagerCall.run w).1.Sound := by
  induction calls with
  | nil => intro w hw; exact hw
  | cons c cs ih =>
      intro w hw
      rw [List.foldl_cons]
      apply ih
      cases c with
      | connect cb err => exact connect_sound cb err w.1 w.2 hw
      | disconnect => exact disconnect_sound w.1 hw

theorem Manager.Sound.count_le_one {m : Manager} (hm : m.Sound) :
    m.clients.count true ≤ 1 := by
  rcases hm with ⟨_, hall⟩ | ⟨earlier, b, hcl, _, hall⟩
  · have : m.clients.count true = 0 :=
      List.count_eq_zero.mpr (fun h => by simpa using hall true h)
    omega
  · have h0 : earlier.count true = 0 :=
      List.count_eq_zero.mpr (fun h => by simpa using hall true h)
    rw [hcl, List.count_append, h0]
    cases b <;> simp

theorem Manager.Sound.active_is_handle {m : Manager} (hm : m.Sound) (i : Nat)
    (hi : m.clients[i]? = some true) : m.client = some i := by
  rcases hm with ⟨_, hall⟩ | ⟨earlier, b, hcl, hc, hall⟩
  · have hmem : true ∈ m.clients := List.getElem?_mem hi
    simpa using hall true hmem
  · rw [hcl] at hi
    by_cases hlt : i < earlier.length
    · rw [List.getElem?_append_left hlt] at hi
      have hmem : true ∈ earlier := List.getElem?_mem hi
      simpa using hall true hmem
    · have hge : earlier.length ≤ i := Nat.le_of_not_lt hlt
      rw [List.getElem?_append_right hge] at hi
      have : i - earlier.length = 0 := by
        by_contra hne
        have : [b][i - earlier.length]? = none := by
          apply List.getElem?_eq_none
          simp
          omega
        rw [this] at hi
        exact Option.noConfusion hi
      have hi' : i = earlier.length := by omega
      rw [hc, hi']

theorem connect_manager {ι σ : Type} (cb : Callbacks ι σ) (err : Option String)
    (m : Manager) (e : Env ι σ) :
    (connectWebSocket cb err m e).1.ops =
        m.ops ++ (match m.client with
          | some i => [ClientOp.deactivate i]
          | none => []) ++
        [.construct m.clients.length, .activate m.clients.length] ∧
    (connectWebSocket cb err m e).1.client = some m.clients.length ∧
    (connectWebSocket cb err m e).1.clients =
        (match m.client with
          | some i => m.clients.set i false
          | none => m.clients) ++ [err.isNone] := by
  cases hc : m.client <;> cases err <;>
    simp [connectWebSocket, hc, Manager.deactivate, set_append_length]

theorem connect_env {ι σ : Type} (cb : Callbacks ι σ) (err : Option String)
    (m : Manager) (e : Env ι σ) :
    (connectWebSocket cb err m e).2 =
      match err with
      | none => e
      | some msg =>
          reportError cb msg
            { e with
              console := e.console ++ ["Failed to activate WebSocket client: " ++ msg] } := by
  cases err <;> rfl

theorem disconnect_inactive (m : Manager) (hm : m.Sound) :
    (disconnectWebSocket m).client = none ∧
    (disconnectWebSocket m).clients.count true = 0 := by
  have hnone : (disconnectWebSocket m).client = none := by
    cases h : m.client <;> simp [disconnectWebSocket, h, Manager.deactivate]
  refine ⟨hnone, ?_⟩
  rcases disconnect_sound m hm with ⟨_, hall⟩ | ⟨earlier, b, _, hc, _⟩
  · exact List.count_eq_zero.mpr (fun h => by simpa using hall true h)
  · rw [hnone] at hc
    exact Option.noConfusion hc

/-- Claim C19. Never two live connections.  One call of `connectWebSocket`, in every
module state: it first deactivates the client the handle refers to, if any, then
constructs the new client and activates it; the handle then refers to the new client, the
old client is inactive, every other client is as before, and the new client is active
unless its activation threw, in which case the error goes to `onError`.  After every
sequence of `connectWebSocket` and `disconnectWebSocket` calls from the initial module
state at most one client is active and the handle refers to every active client; when a
connect without error follows, exactly one client is active, the new one, under the
handle; when a disconnect follows, no client is active and the handle is null. -/
theorem c19_at_most_one_active_client {ι σ : Type} (calls : List (ManagerCall ι σ))
    (env : Env ι σ) :
    (∀ (cb : Callbacks ι σ) (err : Option String) (m : Manager) (e : Env ι σ),
      (connectWebSocket cb err m e).1.ops =
        m.ops ++ (match m.client with
          | some i => [ClientOp.deactivate i]
          | none => []) ++
        [.construct m.clients.length, .activate m.clients.length] ∧
      (connectWebSocket cb err m e).1.client = some m.clients.length ∧
      (connectWebSocket cb err m e).1.clients =
        (match m.client with
          | some i => m.clients.set i false
          | none => m.clients) ++ [err.isNone] ∧
      (connectWebSocket cb err m e).2 =
        match err with
        | none => e
        | some msg =>
            reportError cb msg
              { e with
                console :=
                  e.console ++ ["Failed to activate WebSocket client: " ++ msg] }) ∧
    (calls.foldl ManagerCall.run (Manager.initial, env)).1.clients.count true ≤ 1 ∧
    (∀ i, (calls.foldl ManagerCall.run (Manager.initial, env)).1.clients[i]? = some true →
      (calls.foldl ManagerCall.run (Manager.initial, env)).1.client = some i) ∧
    (∀ cb : Callbacks ι σ,
      ((calls ++ [ManagerCall.connect cb none]).foldl ManagerCall.run
          (Manager.initial, env)).1.client =
        some (calls.foldl ManagerCall.run (Manager.initial, env)).1.clients.length ∧
      ((calls ++ [ManagerCall.connect cb none]).foldl ManagerCall.run
          (Manager.initial, env)).1.clients[
            (calls.foldl ManagerCall.run (Manager.initial, env)).1.clients.length]? =
        some true ∧
      ((calls ++ [ManagerCall.connect cb none]).foldl ManagerCall.run
          (Manager.initial, env)).1.clients.count true = 1) ∧
    ((calls ++ [ManagerCall.disconnect]).foldl ManagerCall.run (Manager.initial, env)).1.client =
      none ∧
    ((calls ++ [ManagerCall.disconnect]).foldl ManagerCall.run
      (Manager.initial, env)).1.clients.count true = 0 := by
  have hs := run_sound calls (Manager.initial, env) Manager.sound_initial
  refine ⟨?_, hs.count_le_one, hs.active_is_handle, ?_, ?_, ?_⟩
  · intro cb err m e
    obtain ⟨h1, h2, h3⟩ := connect_manager cb err m e
    exact ⟨h1, h2, h3, connect_env cb err m e⟩
  · intro cb
    rw [List.foldl_append]
    simp only [List.foldl_cons, List.foldl_nil, ManagerCall.run]
    generalize calls.foldl ManagerCall.run (Manager.initial, env) = w at hs ⊢
    obtain ⟨_, h2, _⟩ := connect_manager cb none w.1 w.2
    obtain ⟨earlier, hcl, hc, hall⟩ := connect_clients cb none w.1 w.2 hs
    have hlen : earlier.length = w.1.clients.length := by
      rw [h2] at hc
      exact (Option.some.inj hc).symm
    refine ⟨h2, ?_, ?_⟩
    · rw [hcl, ← hlen, List.getElem?_append_right (le_refl _)]
      simp
    · have h0 : earlier.count true = 0 :=
        List.count_eq_zero.mpr (fun h => by simpa using hall true h)
      rw [hcl, List.count_append, h0]
      simp
  · rw [List.foldl_append]
    simp only [List.foldl_cons, List.foldl_nil, ManagerCall.run]
    exact (disconnect_inactive _ hs).1
  · rw [List.foldl_append]
    simp only [List.foldl_cons, List.foldl_nil, ManagerCall.run]
    exact (disconnect_inactive _ hs).2

/-- Claim C20. Disconnecting is idempotent and possible from any state: on a module with a
null handle `disconnectWebSocket` changes nothing and deactivates nothing; calling it
twice leaves the state that calling it once leaves; the handle is null afterwards; and
when the handle referred to client `i`, the two calls together deactivate it exactly
once and leave it inactive. -/
theorem c20_disconnect_idempotent (m : Manager) :
    (m.client = none → disconnectWebSocket m = m) ∧
    disconnectWebSocket (disconnectWebSocket m) = disconnectWebSocket m ∧
    (disconnectWebSocket m).client = none ∧
    (∀ i, m.client = some i →
      (disconnectWebSocket (disconnectWebSocket m)).ops = m.ops ++ [.deactivate i] ∧
      (disconnectWebSocket (disconnectWebSocket m)).clients[i]? ≠ some true) := by
  refine ⟨?_, ?_, ?_, ?_⟩
  · intro h; simp [disconnectWebSocket, h]
  · cases h : m.client <;> simp [disconnectWebSocket, h, Manager.deactivate]
  · cases h : m.client <;> simp [disconnectWebSocket, h, Manager.deactivate]
  · intro i h
    constructor
    · simp [disconnectWebSocket, h, Manager.deactivate]
    · simp only [disconnectWebSocket, h, Manager.deactivate]
      intro hi
      by_cases hlt : i < m.clients.length
      · rw [List.getElem?_set_self hlt] at hi
        simp at hi
      · have : (m.clients.set i false)[i]? = none := by
          apply List.getElem?_eq_none
          simp
          omega
        rw [this] at hi
        exact Option.noConfusion hi

/-- Claim C20 at a concrete input: with the handle on the only client, active, two calls of
`disconnectWebSocket` deactivate it once; with a null handle the call changes nothing. -/
theorem c20_disconnect_idempotent_witness :
    (disconnectWebSocket (disconnectWebSocket ⟨some 0, [true], [.construct 0, .activate 0]⟩)).ops =
      [.construct 0, .activate 0, .deactivate 0] ∧
    disconnectWebSocket ⟨none, [false], [.construct 0, .activate 0, .deactivate 0]⟩ =
      ⟨none, [false], [.construct 0, .activate 0, .deactivate 0]⟩ :=
  ⟨((c20_disconnect_idempotent ⟨some 0, [true], [.construct 0, .activate 0]⟩).2.2.2 0 rfl).1,
    (c20_disconnect_idempotent
      ⟨none, [false], [.construct 0, .activate 0, .deactivate 0]⟩).1 rfl⟩

/-! ## The two policies side by side -/

/-- Claim C21. Arrival-order policy: under the reducer of the feed an update whose
identifier is not in the collection is put in front; the result is the update followed by
every previous entry in its previous order, whatever the confidence scores. -/
theorem c21_feed_prepends_unseen_update (prev : List Incident) (incident : Incident)
    (h : ∀ x ∈ prev, x.id ≠ incident.id) :
    IncidentFeed.applyUpdate prev incident = incident :: prev :=
  feed_applyUpdate_of_not_mem h

/-- Claim C21 at a concrete input: a push of low confidence goes in front of entries of
higher confidence. -/
theorem c21_feed_prepends_unseen_update_witness :
    (∀ x ∈ [(⟨1, "VERIFIED", 80, some 10⟩ : Incident), ⟨2, "VERIFIED", 90, some 20⟩],
      x.id ≠ (⟨3, "UNVERIFIED", 5, none⟩ : Incident).id) ∧
    IncidentFeed.applyUpdate [⟨1, "VERIFIED", 80, some 10⟩, ⟨2, "VERIFIED", 90, some 20⟩]
        ⟨3, "UNVERIFIED", 5, none⟩ =
      [⟨3, "UNVERIFIED", 5, none⟩, ⟨1, "VERIFIED", 80, some 10⟩,
        ⟨2, "VERIFIED", 90, some 20⟩] :=
  ⟨by decide,
    c21_feed_prepends_unseen_update
      [⟨1, "VERIFIED", 80, some 10⟩, ⟨2, "VERIFIED", 90, some 20⟩]
      ⟨3, "UNVERIFIED", 5, none⟩ (by decide)⟩

theorem length_replaceFirst (incident : Incident) :
    ∀ l : List Incident, (replaceFirst incident l).length = l.length
  | [] => rfl
  | x :: xs => by
      by_cases hx : x.id = incident.id
      · simp [replaceFirst, hx]
      · simp [replaceFirst, hx, length_replaceFirst incident xs]

/-- Claim C24. The push reducers never delete a record: for every collection and every
update, under the reducer of the feed and under that of the admin panel, every identifier
present before is present after, the length grows by exactly one when the identifier of
the update was unseen, and it is unchanged otherwise. -/
theorem c24_applyUpdate_never_deletes (prev : List Incident) (u : Incident) :
    ((∀ k ∈ prev.map Incident.id, k ∈ (IncidentFeed.applyUpdate prev u).map Incident.id) ∧
      ((∀ x ∈ prev, x.id ≠ u.id) →
        (IncidentFeed.applyUpdate prev u).length = prev.length + 1) ∧
      ((∃ x ∈ prev, x.id = u.id) →
        (IncidentFeed.applyUpdate prev u).length = prev.length)) ∧
    ((∀ k ∈ prev.map Incident.id, k ∈ (AdminPanel.applyUpdate prev u).map Incident.id) ∧
      ((∀ x ∈ prev, x.id ≠ u.id) →
        (AdminPanel.applyUpdate prev u).length = prev.length + 1) ∧
      ((∃ x ∈ prev, x.id = u.id) →
        (AdminPanel.applyUpdate prev u).length = prev.length)) := by
  have hsort := arraySort_perm AdminPanel.compareFn (u :: prev)
  refine ⟨⟨?_, ?_, ?_⟩, ⟨?_, ?_, ?_⟩⟩
  · intro k hk
    by_cases h : ∃ x ∈ prev, x.id = u.id
    · rw [feed_applyUpdate_of_mem h, map_id_replaceFirst]; exact hk
    · have h' : ∀ x ∈ prev, x.id ≠ u.id := fun x hx hxid => h ⟨x, hx, hxid⟩
      rw [feed_applyUpdate_of_not_mem h']
      exact List.mem_cons_of_mem _ hk
  · intro h; rw [feed_applyUpdate_of_not_mem h]; rfl
  · intro h; rw [feed_applyUpdate_of_mem h, length_replaceFirst]
  · intro k hk
    by_cases h : ∃ x ∈ prev, x.id = u.id
    · rw [admin_applyUpdate_of_mem h, map_id_replaceFirst]; exact hk
    · have h' : ∀ x ∈ prev, x.id ≠ u.id := fun x hx hxid => h ⟨x, hx, hxid⟩
      rw [admin_applyUpdate_of_not_mem h']
      exact ((hsort.map Incident.id).mem_iff).mpr (List.mem_cons_of_mem _ hk)
  · intro h; rw [admin_applyUpdate_of_not_mem h, hsort.length_eq]; rfl
  · intro h; rw [admin_applyUpdate_of_mem h, length_replaceFirst]

theorem any_id_iff (prev : List Incident) (u : Incident) :
    prev.any (fun i => i.id == u.id) = true ↔ ∃ x ∈ prev, x.id = u.id := by
  simp [List.any_eq_true]

theorem feed_applyUpdate_eq_upsertWith (prev : List Incident) (u : Incident) :
    IncidentFeed.applyUpdate prev u = upsertWith id prev u := by
  unfold upsertWith
  by_cases h : ∃ x ∈ prev, x.id = u.id
  · rw [if_pos ((any_id_iff prev u).mpr h), feed_applyUpdate_of_mem h]
  · have h' : ∀ x ∈ prev, x.id ≠ u.id := fun x hx hxid => h ⟨x, hx, hxid⟩
    rw [if_neg (fun hp => h ((any_id_iff prev u).mp hp)), feed_applyUpdate_of_not_mem h']
    rfl

theorem admin_applyUpdate_eq_upsertWith (prev : List Incident) (u : Incident) :
    AdminPanel.applyUpdate prev u = upsertWith (arraySort AdminPanel.compareFn) prev u := by
  unfold upsertWith
  by_cases h : ∃ x ∈ prev, x.id = u.id
  · rw [if_pos ((any_id_iff prev u).mpr h), admin_applyUpdate_of_mem h]
  · have h' : ∀ x ∈ prev, x.id ≠ u.id := fun x hx hxid => h ⟨x, hx, hxid⟩
    rw [if_neg (fun hp => h ((any_id_iff prev u).mp hp)), admin_applyUpdate_of_not_mem h']

/-- Claim C25. The two reducers are the same upsert with two ordering strategies: the
reducer of the feed is `upsertWith` with the strategy that orders nothing, that of the
admin panel is `upsertWith` with the priority sort; so for every collection and every
update their results hold exactly the same entries, each a rearrangement of the other,
and the two results are equal whenever the identifier of the update is already
present. -/
theorem c25_reducers_share_one_upsert (prev : List Incident) (u : Incident) :
    IncidentFeed.applyUpdate prev u = upsertWith id prev u ∧
    AdminPanel.applyUpdate prev u = upsertWith (arraySort AdminPanel.compareFn) prev u ∧
    (IncidentFeed.applyUpdate prev u).Perm (AdminPanel.applyUpdate prev u) ∧
    ((∃ x ∈ prev, x.id = u.id) →
      IncidentFeed.applyUpdate prev u = AdminPanel.applyUpdate prev u) := by
  refine ⟨feed_applyUpdate_eq_upsertWith prev u, admin_applyUpdate_eq_upsertWith prev u,
    ?_, ?_⟩
  · by_cases h : ∃ x ∈ prev, x.id = u.id
    · rw [feed_applyUpdate_of_mem h, admin_applyUpdate_of_mem h]
    · have h' : ∀ x ∈ prev, x.id ≠ u.id := fun x hx hxid => h ⟨x, hx, hxid⟩
      rw [feed_applyUpdate_of_not_mem h', admin_applyUpdate_of_not_mem h']
      exact (arraySort_perm AdminPanel.compareFn (u :: prev)).symm
  · intro h
    rw [feed_applyUpdate_of_mem h, admin_applyUpdate_of_mem h]

theorem findIndexFrom_first {α : Type} (p : α → Bool) :
    ∀ (l : List α) (k0 k : Nat) (x : α), l[k]? = some x → p x = true →
      (∀ j, j < k → ∀ y, l[j]? = some y → p y = false) →
      findIndexFrom p l k0 = ((k0 + k : Nat) : Int)
  | [], _, k, x, hx, _, _ => by simp at hx
  | a :: l, k0, 0, x, hx, hp, _ => by
      have : a = x := by simpa using hx
      simp [findIndexFrom, this, hp]
  | a :: l, k0, k + 1, x, hx, hp, hfirst => by
      have ha : p a = false := hfirst 0 (Nat.succ_pos k) a (by simp)
      have hx' : l[k]? = some x := by simpa using hx
      have hfirst' : ∀ j, j < k → ∀ y, l[j]? = some y → p y = false := by
        intro j hj y hy
        exact hfirst (j + 1) (Nat.succ_lt_succ hj) y (by simpa using hy)
      have ih := findIndexFrom_first p l (k0 + 1) k x hx' hp hfirst'
      simp only [findIndexFrom, ha, Bool.false_eq_true, if_false, ih]
      congr 1
      omega

theorem applyUpdate_eq_set {prev : List Incident} {u x : Incident} {k : Nat}
    (hx : prev[k]? = some x) (hid : x.id = u.id)
    (hfirst : ∀ j, j < k → ∀ y, prev[j]? = some y → y.id ≠ u.id) :
    IncidentFeed.applyUpdate prev u = prev.set k u ∧
    AdminPanel.applyUpdate prev u = prev.set k u := by
  have hfi : findIndex (fun i : Incident => i.id == u.id) prev = ((0 + k : Nat) : Int) :=
    findIndexFrom_first _ prev 0 k x hx (by simpa using hid)
      (fun j hj y hy => by simpa using hfirst j hj y hy)
  constructor
  · simp [IncidentFeed.applyUpdate, hfi]
  · simp [AdminPanel.applyUpdate, hfi]

/-- Claim C27. Replacement keeps every other entry in place: under the reducer of the
feed and under that of the admin panel, when the identifier of the update first occurs at
index `k` of the collection, the result has the same length, holds the update at index
`k`, and holds at every other index the entry that was there before. -/
theorem c27_replacement_keeps_other_entries (prev : List Incident) (u x : Incident)
    (k : Nat) (hx : prev[k]? = some x) (hid : x.id = u.id)
    (hfirst : ∀ j, j < k → ∀ y, prev[j]? = some y → y.id ≠ u.id) :
    ((IncidentFeed.applyUpdate prev u).length = prev.length ∧
      (IncidentFeed.applyUpdate prev u)[k]? = some u ∧
      ∀ j, j ≠ k → (IncidentFeed.applyUpdate prev u)[j]? = prev[j]?) ∧
    ((AdminPanel.applyUpdate prev u).length = prev.length ∧
      (AdminPanel.applyUpdate prev u)[k]? = some u ∧
      ∀ j, j ≠ k → (AdminPanel.applyUpdate prev u)[j]? = prev[j]?) := by
  obtain ⟨hF, hA⟩ := applyUpdate_eq_set hx hid hfirst
  have hk : k < prev.length := by
    by_contra hge
    rw [List.getElem?_eq_none (Nat.le_of_not_lt hge)] at hx
    exact Option.noConfusion hx
  rw [hF, hA]
  have hset : (prev.set k u).length = prev.length ∧ (prev.set k u)[k]? = some u ∧
      ∀ j, j ≠ k → (prev.set k u)[j]? = prev[j]? :=
    ⟨List.length_set _ _ _, List.getElem?_set_self hk,
      fun j hj => List.getElem?_set_ne (Ne.symm hj)⟩
  exact ⟨hset, hset⟩

/-- Claim C27 at a concrete input: `id 2` first occurs at index 1; the update takes that
place and the entries at indices 0 and 2 stay. -/
theorem c27_replacement_keeps_other_entries_witness :
    ([(⟨1, "VERIFIED", 80, some 10⟩ : Incident), ⟨2, "UNVERIFIED", 40, some 20⟩,
        ⟨3, "VERIFIED", 60, none⟩][1]? = some ⟨2, "UNVERIFIED", 40, some 20⟩) ∧
    AdminPanel.applyUpdate
        [⟨1, "VERIFIED", 80, some 10⟩, ⟨2, "UNVERIFIED", 40, some 20⟩,
          ⟨3, "VERIFIED", 60, none⟩]
        ⟨2, "VERIFIED", 95, some 20⟩ =
      [⟨1, "VERIFIED", 80, some 10⟩, ⟨2, "VERIFIED", 95, some 20⟩,
        ⟨3, "VERIFIED", 60, none⟩] ∧
    (IncidentFeed.applyUpdate
        [⟨1, "VERIFIED", 80, some 10⟩, ⟨2, "UNVERIFIED", 40, some 20⟩,
          ⟨3, "VERIFIED", 60, none⟩]
        ⟨2, "VERIFIED", 95, some 20⟩)[1]? = some ⟨2, "VERIFIED", 95, some 20⟩ :=
  ⟨rfl, by decide,
    (c27_replacement_keeps_other_entries
      [⟨1, "VERIFIED", 80, some 10⟩, ⟨2, "UNVERIFIED", 40, some 20⟩,
        ⟨3, "VERIFIED", 60, none⟩]
      ⟨2, "VERIFIED", 95, some 20⟩ ⟨2, "UNVERIFIED", 40, some 20⟩ 1 rfl rfl
      (by
        intro j hj y hy
        have hj0 : j = 0 := by omega
        subst hj0
        have : y = ⟨1, "VERIFIED", 80, some 10⟩ := by simpa using hy.symm
        rw [this]
        decide)).1.2.1⟩

/-! ## Ranking on insertion -/

theorem sortBefore_iff_rankedBefore {a b : Incident} (ha : a.createdAt.isSome = true)
    (hb : b.createdAt.isSome = true) :
    sortCompare (AdminPanel.compareFn a b) ≤ 0 ↔ rankedBefore a b = true := by
  obtain ⟨ta, hta⟩ := Option.isSome_iff_exists.mp ha
  obtain ⟨tb, htb⟩ := Option.isSome_iff_exists.mp hb
  unfold AdminPanel.compareFn rankedBefore
  rw [hta, htb]
  by_cases hs : b.confidenceScore = a.confidenceScore
  · simp [hs, sortCompare]
  · have hs' : ¬ a.confidenceScore = b.confidenceScore := fun h => hs h.symm
    simp only [ne_eq, hs, not_false_eq_true, if_true, sortCompare, hs', decide_False,
      Bool.false_and, Bool.or_false, decide_eq_true_eq]
    omega

theorem rankedBefore_total {a b : Incident} (ha : a.createdAt.isSome = true)
    (hb : b.createdAt.isSome = true) :
    rankedBefore a b = true ∨ rankedBefore b a = true := by
  obtain ⟨ta, hta⟩ := Option.isSome_iff_exists.mp ha
  obtain ⟨tb, htb⟩ := Option.isSome_iff_exists.mp hb
  unfold rankedBefore
  rw [hta, htb]
  simp only [Bool.or_eq_true, Bool.and_eq_true, decide_eq_true_eq]
  omega

theorem rankedBefore_trans {a b c : Incident} (hab : rankedBefore a b = true)
    (hbc : rankedBefore b c = true) : rankedBefore a c = true := by
  unfold rankedBefore at hab hbc ⊢
  cases ha : a.createdAt <;> cases hb : b.createdAt <;> cases hc : c.createdAt <;>
    simp only [ha, hb, hc, Bool.or_eq_true, Bool.and_eq_true, decide_eq_true_eq,
      Bool.false_eq_true, and_false, or_false] at hab hbc ⊢ <;>
    omega

theorem rankOrdered_orderedInsert (u : Incident) (hu : u.createdAt.isSome = true) :
    ∀ l : List Incident, (∀ e ∈ l, e.createdAt.isSome = true) → RankOrdered l →
      RankOrdered
        (List.orderedInsert (fun a b => sortCompare (AdminPanel.compareFn a b) ≤ 0) u l)
  | [], _, _ => by simp [RankOrdered]
  | b :: l, hl, hord => by
      have hb : b.createdAt.isSome = true := hl b (List.mem_cons_self b l)
      have hl' : ∀ e ∈ l, e.createdAt.isSome = true :=
        fun e he => hl e (List.mem_cons_of_mem b he)
      obtain ⟨hbl, hord'⟩ := List.pairwise_cons.mp hord
      simp only [List.orderedInsert]
      by_cases hub : sortCompare (AdminPanel.compareFn u b) ≤ 0
      · rw [if_pos hub]
        have hub' := (sortBefore_iff_rankedBefore hu hb).mp hub
        refine List.pairwise_cons.mpr ⟨?_, hord⟩
        intro x hx
        rcases List.mem_cons.mp hx with rfl | hx
        · exact hub'
        · exact rankedBefore_trans hub' (hbl x hx)
      · rw [if_neg hub]
        have hbu : rankedBefore b u = true := by
          rcases rankedBefore_total hu hb with h | h
          · exact absurd ((sortBefore_iff_rankedBefore hu hb).mpr h) hub
          · exact h
        refine List.pairwise_cons.mpr ⟨?_, rankOrdered_orderedInsert u hu l hl' hord'⟩
        intro x hx
        rcases (List.mem_orderedInsert _).mp hx with rfl | hx
        · exact hbu
        · exact hbl x hx

/-- Claim C28. Insertion preserves ranking: under the priority-rank reducer, when the
collection obeys the ordering rule, every timestamp (of the collection and of the update)
is parseable and the identifier of the update is not in the collection, the result is a
rearrangement of the update and the previous entries and obeys the ordering rule again.
Scores are integers, hence finite. -/
theorem c28_insertion_preserves_ranking (prev : List Incident) (u : Incident)
    (hord : RankOrdered prev) (hu : u.createdAt.isSome = true)
    (htime : ∀ e ∈ prev, e.createdAt.isSome = true)
    (hnew : ∀ x ∈ prev, x.id ≠ u.id) :
    (AdminPanel.applyUpdate prev u).Perm (u :: prev) ∧
    RankOrdered (AdminPanel.applyUpdate prev u) := by
  rw [admin_applyUpdate_of_not_mem hnew]
  refine ⟨arraySort_perm _ _, ?_⟩
  have hsorted : List.Sorted (fun a b => sortCompare (AdminPanel.compareFn a b) ≤ 0) prev :=
    List.Pairwise.imp_of_mem
      (fun {a b} ha hb hab => (sortBefore_iff_rankedBefore (htime a ha) (htime b hb)).mpr hab)
      hord
  show RankOrdered (List.orderedInsert _ u (List.insertionSort _ prev))
  rw [hsorted.insertionSort_eq]
  exact rankOrdered_orderedInsert u hu prev htime hord

/-- Claim C28 at a concrete input: `id 3 (60)` pushed into `[id 1 (80), id 2 (40)]` lands
between the two. -/
theorem c28_insertion_preserves_ranking_witness :
    RankOrdered [(⟨1, "VERIFIED", 80, some 10⟩ : Incident), ⟨2, "VERIFIED", 40, some 20⟩] ∧
    AdminPanel.applyUpdate [⟨1, "VERIFIED", 80, some 10⟩, ⟨2, "VERIFIED", 40, some 20⟩]
        ⟨3, "UNVERIFIED", 60, some 30⟩ =
      [⟨1, "VERIFIED", 80, some 10⟩, ⟨3, "UNVERIFIED", 60, some 30⟩,
        ⟨2, "VERIFIED", 40, some 20⟩] ∧
    RankOrdered
      (AdminPanel.applyUpdate [⟨1, "VERIFIED", 80, some 10⟩, ⟨2, "VERIFIED", 40, some 20⟩]
        ⟨3, "UNVERIFIED", 60, some 30⟩) :=
  ⟨by simp [RankOrdered, rankedBefore], by decide,
    (c28_insertion_preserves_ranking
      [⟨1, "VERIFIED", 80, some 10⟩, ⟨2, "VERIFIED", 40, some 20⟩]
      ⟨3, "UNVERIFIED", 60, some 30⟩
      (by simp [RankOrdered, rankedBefore]) rfl (by decide) (by decide)).2⟩

/-! ## Unparseable timestamps -/

/-- Claim C22, refuted as stated: `id 2`, of confidence 50 and with a creation time that
cannot be parsed, is pushed into `[id 1]`, of confidence 50 and creation time 1000 (later
than epoch 0).  It is placed before `id 1`, not after it; with the creation time 0 in its
stead it would be placed after. -/
theorem c22_unparseable_timestamp_is_not_epoch_zero :
    AdminPanel.applyUpdate [⟨1, "VERIFIED", 50, some 1000⟩] ⟨2, "UNVERIFIED", 50, none⟩ =
      [⟨2, "UNVERIFIED", 50, none⟩, ⟨1, "VERIFIED", 50, some 1000⟩] ∧
    ¬ StandsBefore ⟨1, "VERIFIED", 50, some 1000⟩ ⟨2, "UNVERIFIED", 50, none⟩
      (AdminPanel.applyUpdate [⟨1, "VERIFIED", 50, some 1000⟩]
        ⟨2, "UNVERIFIED", 50, none⟩) ∧
    AdminPanel.applyUpdate [⟨1, "VERIFIED", 50, some 1000⟩] ⟨2, "UNVERIFIED", 50, some 0⟩ =
      [⟨1, "VERIFIED", 50, some 1000⟩, ⟨2, "UNVERIFIED", 50, some 0⟩] := by
  refine ⟨by decide, ?_, by decide⟩
  unfold StandsBefore
  decide

/-- Claim C22, amended. There is no fallback to epoch 0: against an entry of equal
confidence the comparator gives NaN for an entry whose creation time cannot be parsed,
in either order of the arguments, and the sort reads NaN as a tie; so when such an entry
is pushed with an unseen identifier into a collection on which, together with the entry,
the comparator is consistent, it is placed before every entry of equal confidence already
in the collection.  Consistency is what makes the sorted array the same for every stable
sort. -/
theorem c22_unparseable_timestamp_ties (prev : List Incident) (u e : Incident)
    (hnew : ∀ x ∈ prev, x.id ≠ u.id) (hu : u.createdAt = none) (he : e ∈ prev)
    (hs : e.confidenceScore = u.confidenceScore) (_hc : ConsistentOn (u :: prev)) :
    AdminPanel.compareFn u e = none ∧ AdminPanel.compareFn e u = none ∧
    sortCompare (AdminPanel.compareFn u e) = 0 ∧
    StandsBefore u e (AdminPanel.applyUpdate prev u) := by
  have h1 : AdminPanel.compareFn u e = none := by
    unfold AdminPanel.compareFn
    rw [if_neg (not_not.mpr hs), hu]
    cases e.createdAt <;> rfl
  have h2 : AdminPanel.compareFn e u = none := by
    unfold AdminPanel.compareFn
    rw [if_neg (not_not.mpr hs.symm), hu]
  refine ⟨h1, h2, by rw [h1]; rfl, ?_⟩
  rw [admin_applyUpdate_of_not_mem hnew]
  unfold StandsBefore
  show [u, e].Sublist (List.orderedInsert _ u (List.insertionSort _ prev))
  apply List.cons_sublist_orderedInsert
  · exact List.singleton_sublist.mpr ((List.mem_insertionSort _).mpr he)
  · intro a ha
    rw [List.mem_singleton.mp ha, h1]
    exact le_refl _

/-- Claim C22, amended, at a concrete input: the unparseable `id 3` of confidence 50 goes
before `id 2`, of confidence 50 and creation time 1000, and after `id 1`, of
confidence 80; the comparator is consistent on the three entries. -/
theorem c22_unparseable_timestamp_ties_witness :
    (⟨3, "UNVERIFIED", 50, none⟩ : Incident).createdAt = none ∧
    ConsistentOn [⟨3, "UNVERIFIED", 50, none⟩, ⟨1, "VERIFIED", 80, some 10⟩,
      ⟨2, "VERIFIED", 50, some 1000⟩] ∧
    AdminPanel.applyUpdate [⟨1, "VERIFIED", 80, some 10⟩, ⟨2, "VERIFIED", 50, some 1000⟩]
        ⟨3, "UNVERIFIED", 50, none⟩ =
      [⟨1, "VERIFIED", 80, some 10⟩, ⟨3, "UNVERIFIED", 50, none⟩,
        ⟨2, "VERIFIED", 50, some 1000⟩] ∧
    StandsBefore ⟨3, "UNVERIFIED", 50, none⟩ ⟨2, "VERIFIED", 50, some 1000⟩
      (AdminPanel.applyUpdate [⟨1, "VERIFIED", 80, some 10⟩, ⟨2, "VERIFIED", 50, some 1000⟩]
        ⟨3, "UNVERIFIED", 50, none⟩) :=
  ⟨rfl, by unfold ConsistentOn; decide, by decide,
    (c22_unparseable_timestamp_ties
      [⟨1, "VERIFIED", 80, some 10⟩, ⟨2, "VERIFIED", 50, some 1000⟩]
      ⟨3, "UNVERIFIED", 50, none⟩ ⟨2, "VERIFIED", 50, some 1000⟩
      (by decide) rfl (by decide) rfl (by unfold ConsistentOn; decide)).2.2.2⟩

/-! ## Records of any shape -/

theorem getId_ok_of_ne_null {v : Json} (h : v ≠ .null) : ∃ r, v.getId = .ok r := by
  cases v with
  | null => exact absurd rfl h
  | bool b => exact ⟨none, rfl⟩
  | num n => exact ⟨none, rfl⟩
  | str s => exact ⟨none, rfl⟩
  | arr items => exact ⟨none, rfl⟩
  | obj fields => exact ⟨_, rfl⟩

theorem sameIdJson_ok {incident i : Json} (hi : i ≠ .null) (hinc : incident ≠ .null) :
    ∃ b, sameIdJson incident i = .ok b := by
  obtain ⟨a, ha⟩ := getId_ok_of_ne_null hi
  obtain ⟨c, hc⟩ := getId_ok_of_ne_null hinc
  exact ⟨strictEquals a c, by simp [sameIdJson, ha, hc]⟩

theorem findIndexFromE_ok {α ε : Type} (p : α → Except ε Bool) :
    ∀ (l : List α) (k : Nat), (∀ x ∈ l, ∃ b, p x = .ok b) →
      ∃ j : Int, findIndexFromE p l k = .ok j ∧
        (j = -1 ∨ ((k : Int) ≤ j ∧ j < (k : Int) + l.length))
  | [], _, _ => ⟨-1, rfl, Or.inl rfl⟩
  | x :: xs, k, h => by
      obtain ⟨b, hb⟩ := h x (List.mem_cons_self x xs)
      cases b with
      | true =>
          refine ⟨(k : Int), by simp [findIndexFromE, hb], Or.inr ⟨le_refl _, ?_⟩⟩
          simp only [List.length_cons, Nat.cast_add, Nat.cast_one]
          omega
      | false =>
          obtain ⟨j, hj, hrange⟩ := findIndexFromE_ok p xs (k + 1)
            (fun y hy => h y (List.mem_cons_of_mem x hy))
          refine ⟨j, by simp [findIndexFromE, hb, hj], ?_⟩
          rcases hrange with h1 | ⟨h1, h2⟩
          · exact Or.inl h1
          · refine Or.inr ⟨?_, ?_⟩
            · push_cast at h1; omega
            · simp only [List.length_cons, Nat.cast_add, Nat.cast_one] at h2 ⊢
              omega

theorem feed_applyUpdateJson_ok (prev : List Json) (incident : Json)
    (hprev : ∀ x ∈ prev, x ≠ .null) (hinc : incident ≠ .null) :
    ∃ c, IncidentFeed.applyUpdateJson prev incident = .ok c ∧ incident ∈ c := by
  obtain ⟨j, hj, hrange⟩ := findIndexFromE_ok (sameIdJson incident) prev 0
    (fun x hx => sameIdJson_ok (hprev x hx) hinc)
  unfold IncidentFeed.applyUpdateJson
  rw [hj]
  rcases hrange with h1 | ⟨h1, h2⟩
  · refine ⟨incident :: prev, ?_, List.mem_cons_self _ _⟩
    simp [h1]
  · refine ⟨prev.set j.toNat incident, ?_, ?_⟩
    · have : j ≥ 0 := by simpa using h1
      simp [this]
    · have hlt : j.toNat < prev.length := by
        have : (0 : Int) ≤ j := by simpa using h1
        omega
      exact List.mem_iff_getElem?.mpr ⟨j.toNat, List.getElem?_set_self hlt⟩

theorem mem_replaceFirst_self (u : Incident) :
    ∀ l : List Incident, (∃ x ∈ l, x.id = u.id) → u ∈ replaceFirst u l
  | [], h => by simp at h
  | x :: xs, h => by
      by_cases hx : x.id = u.id
      · simp [replaceFirst, hx]
      · have hxs : ∃ y ∈ xs, y.id = u.id := by
          obtain ⟨y, hy, hyid⟩ := h
          rcases List.mem_cons.mp hy with rfl | hy
          · exact absurd hyid hx
          · exact ⟨y, hy, hyid⟩
        simp [replaceFirst, hx, mem_replaceFirst_self u xs hxs]

theorem mem_applyUpdate_self (prev : List Incident) (u : Incident) :
    u ∈ IncidentFeed.applyUpdate prev u ∧ u ∈ AdminPanel.applyUpdate prev u := by
  by_cases h : ∃ x ∈ prev, x.id = u.id
  · rw [feed_applyUpdate_of_mem h, admin_applyUpdate_of_mem h]
    exact ⟨mem_replaceFirst_self u prev h, mem_replaceFirst_self u prev h⟩
  · have h' : ∀ x ∈ prev, x.id ≠ u.id := fun x hx hxid => h ⟨x, hx, hxid⟩
    rw [feed_applyUpdate_of_not_mem h', admin_applyUpdate_of_not_mem h']
    exact ⟨List.mem_cons_self _ _,
      (arraySort_perm AdminPanel.compareFn (u :: prev)).mem_iff.mpr (List.mem_cons_self _ _)⟩

theorem sameIdJson_toJson (u i : Incident) :
    sameIdJson u.toJson i.toJson = .ok (i.id == u.id) := by
  by_cases h : i.id = u.id
  · simp [sameIdJson, Json.getId, Incident.toJson, strictEquals, h]
  · simp [sameIdJson, Json.getId, Incident.toJson, strictEquals, h]

theorem findIndexFromE_cons_ok {α ε : Type} (p : α → Except ε Bool) (x : α) (xs : List α)
    (k : Nat) (b : Bool) (h : p x = .ok b) :
    findIndexFromE p (x :: xs) k =
      if b = true then .ok (k : Int) else findIndexFromE p xs (k + 1) := by
  cases b <;> simp [findIndexFromE, h]

theorem findIndexFromE_toJson (u : Incident) :
    ∀ (l : List Incident) (k : Nat),
      findIndexFromE (sameIdJson u.toJson) (l.map Incident.toJson) k =
        .ok (findIndexFrom (fun i => i.id == u.id) l k)
  | [], _ => rfl
  | x :: xs, k => by
      rw [List.map_cons, findIndexFromE_cons_ok _ _ _ _ _ (sameIdJson_toJson u x),
        findIndexFromE_toJson u xs (k + 1)]
      by_cases h : x.id = u.id
      · simp [findIndexFrom, h]
      · simp [findIndexFrom, h]

/-- On incident records the reducer on values of any shape is the typed reducer of the
feed. -/
theorem feed_applyUpdateJson_toJson (prev : List Incident) (u : Incident) :
    IncidentFeed.applyUpdateJson (prev.map Incident.toJson) u.toJson =
      .ok ((IncidentFeed.applyUpdate prev u).map Incident.toJson) := by
  unfold IncidentFeed.applyUpdateJson IncidentFeed.applyUpdate findIndex
  rw [findIndexFromE_toJson]
  by_cases h : findIndexFrom (fun i => i.id == u.id) prev 0 ≥ 0
  · simp [h, List.map_set]
  · simp [h]

/-- Claim C23, refuted as stated: the parsed value `null` is delivered while the feed
holds one incident; the reducer throws a TypeError, reading `id` off `null`. -/
theorem c23_null_record_raises :
    IncidentFeed.applyUpdateJson [Incident.toJson ⟨1, "VERIFIED", 80, some 10⟩] .null =
      .error "TypeError: Cannot read properties of null (reading id)" :=
  rfl

/-- Claim C23, amended. For every collection of incident records and every incident
record (one with an out-of-range confidence score or an unparseable creation time
included), both reducers return a collection that contains the record exactly as given.
Under the reducer of the feed this extends to every parsed value other than `null`, on a
collection that holds no `null`: the reducer returns without raising and the collection
contains the value as given. -/
theorem c23_applyUpdate_total_on_records (prev : List Incident) (u : Incident)
    (values : List Json) (v : Json) (hvalues : ∀ x ∈ values, x ≠ .null) (hv : v ≠ .null) :
    u ∈ IncidentFeed.applyUpdate prev u ∧ u ∈ AdminPanel.applyUpdate prev u ∧
    ∃ c, IncidentFeed.applyUpdateJson values v = .ok c ∧ v ∈ c :=
  ⟨(mem_applyUpdate_self prev u).1, (mem_applyUpdate_self prev u).2,
    feed_applyUpdateJson_ok values v hvalues hv⟩

/-- Claim C23, amended, at a concrete input: a record of confidence 250 with an
unparseable creation time is kept as given by both reducers, and the feed accepts the
string `oops` next to a number and an object. -/
theorem c23_applyUpdate_total_on_records_witness :
    (∀ x ∈ [Json.num 5, Json.obj [("id", .str "a")]], x ≠ Json.null) ∧
    (⟨7, "UNVERIFIED", 250, none⟩ : Incident) ∈
      AdminPanel.applyUpdate [⟨1, "VERIFIED", 80, some 10⟩] ⟨7, "UNVERIFIED", 250, none⟩ ∧
    ∃ c, IncidentFeed.applyUpdateJson [Json.num 5, Json.obj [("id", .str "a")]]
        (.str "oops") = .ok c ∧ Json.str "oops" ∈ c :=
  ⟨by simp,
    (c23_applyUpdate_total_on_records [⟨1, "VERIFIED", 80, some 10⟩]
      ⟨7, "UNVERIFIED", 250, none⟩ [Json.num 5, Json.obj [("id", .str "a")]] (.str "oops")
      (by simp) (by simp)).2.1,
    (c23_applyUpdate_total_on_records [⟨1, "VERIFIED", 80, some 10⟩]
      ⟨7, "UNVERIFIED", 250, none⟩ [Json.num 5, Json.obj [("id", .str "a")]] (.str "oops")
      (by simp) (by simp)).2.2⟩

/-! ## Projections and snapshots -/

/-- Claim C26, refuted as stated: with the user location known, a collection whose only
entry has neither latitude nor longitude still gives one `Marker`, at a position without
coordinates. -/
theorem c26_marker_for_entry_without_coordinates :
    IncidentFeed.markers (some (12, 77))
        [{ id := 1, status := "VERIFIED", confidenceScore := 80, createdAt := some 10,
           latitude := none, longitude := none }] =
      [{ key := 1, position := (none, none) }] := by
  decide

/-- Claim C26, amended. For every collection, once the user location is known the feed
renders one `Marker` for every entry, in collection order, at the position made of the
latitude and the longitude of the entry, present or not: no entry is left out.  Without a
user location it renders no marker. -/
theorem c26_one_marker_per_entry (location : Int × Int)
    (incidents : List LocatedIncident) :
    IncidentFeed.markers (some location) incidents =
      incidents.map (fun incident =>
        { key := incident.id, position := (incident.latitude, incident.longitude) }) ∧
    (IncidentFeed.markers (some location) incidents).length = incidents.length ∧
    IncidentFeed.markers none incidents = [] :=
  ⟨rfl, by simp [IncidentFeed.markers], rfl⟩

/-- Claim C29. A successful snapshot that is a list is stored as it is: after
`loadIncidents` resolves with `list`, the collection is `list`, in the order returned,
whatever the collection held before and whatever pushes were applied to it before; so
every entry of the collection is an entry of `list`.  This holds for the feed, also when
its state is read without the assumption that it holds a list, and for the admin
panel. -/
theorem c29_list_snapshot_stored_verbatim (sF : IncidentFeed.State)
    (sR : IncidentFeed.RawState) (sA : AdminPanel.State) (pushes list : List Incident) :
    (IncidentFeed.loadIncidentsSettle
        (pushes.foldl (fun st u => IncidentFeed.onMessage u st)
          (IncidentFeed.loadIncidentsStart sF)) (.ok list)).incidents = list ∧
    (IncidentFeed.loadIncidentsSettleRaw sR (.resolved (.array list))).incidents =
      .array list ∧
    (AdminPanel.loadIncidentsSettle
        (pushes.foldl (fun st u => AdminPanel.onMessage u st)
          (AdminPanel.loadIncidentsStart sA)) (.resolved (.array list))).incidents = list ∧
    (∀ e, e ∈ (IncidentFeed.loadIncidentsSettle
        (pushes.foldl (fun st u => IncidentFeed.onMessage u st)
          (IncidentFeed.loadIncidentsStart sF)) (.ok list)).incidents → e ∈ list) ∧
    (∀ e, e ∈ (AdminPanel.loadIncidentsSettle
        (pushes.foldl (fun st u => AdminPanel.onMessage u st)
          (AdminPanel.loadIncidentsStart sA)) (.resolved (.array list))).incidents →
      e ∈ list) :=
  ⟨rfl, rfl, rfl, fun _ he => he, fun _ he => he⟩

/-! ## Bodies that parse to no incident record -/

theorem feed_applyUpdateJson_length (prev : List Json) (incident : Json)
    (hprev : ∀ x ∈ prev, x ≠ .null) (hinc : incident ≠ .null) :
    ∃ c, IncidentFeed.applyUpdateJson prev incident = .ok c ∧ incident ∈ c ∧
      (c.length = prev.length ∨ c.length = prev.length + 1) := by
  obtain ⟨j, hj, hrange⟩ := findIndexFromE_ok (sameIdJson incident) prev 0
    (fun x hx => sameIdJson_ok (hprev x hx) hinc)
  unfold IncidentFeed.applyUpdateJson
  rw [hj]
  rcases hrange with h1 | ⟨h1, h2⟩
  · refine ⟨incident :: prev, ?_, List.mem_cons_self _ _, Or.inr rfl⟩
    simp [h1]
  · refine ⟨prev.set j.toNat incident, ?_, ?_, Or.inl (List.length_set _ _ _)⟩
    · have : j ≥ 0 := by simpa using h1
      simp [this]
    · have hlt : j.toNat < prev.length := by
        have : (0 : Int) ≤ j := by simpa using h1
        omega
      exact List.mem_iff_getElem?.mpr ⟨j.toNat, List.getElem?_set_self hlt⟩

/-- Claim C9, refuted as stated: the body `42` is not an incident record, yet `JSON.parse`
accepts it; the handler hands the number to `onMessage` and the reducer of the feed puts
it in front: the collection of one record has two entries afterwards. -/
theorem c9_parsed_non_record_grows_collection :
    ∃ env', subscribeHandler
        (fun b : String =>
          if b = "42" then Except.ok (Json.num 42) else Except.error "SyntaxError")
        IncidentFeed.callbacksJson "42"
        ⟨.ok [Incident.toJson ⟨1, "VERIFIED", 80, some 0⟩], [], []⟩ = .ok env' ∧
      env'.caller = .ok [Json.num 42, Incident.toJson ⟨1, "VERIFIED", 80, some 0⟩] ∧
      [Json.num 42, Incident.toJson ⟨1, "VERIFIED", 80, some 0⟩].length ≠
        [Incident.toJson ⟨1, "VERIFIED", 80, some 0⟩].length :=
  ⟨_, rfl, rfl, by decide⟩

/-- Claim C9, amended. For every message whose body `JSON.parse` rejects, the subscription
handler returns without throwing, calls no callback, and the collection of the view has
the same size afterwards as before, with the callbacks of the feed and with those of the
admin panel, and with the feed on values of any shape its collection is untouched.  A body
that `JSON.parse` accepts is not held to be malformed, record or not: the handler returns
without throwing and hands the value to `onMessage`; under the reducer of the feed a value
other than `null`, on a collection that holds no `null`, is then in the collection, whose
size is as before or greater by one. -/
theorem c9_rejected_body_keeps_collection_size
    (jsonParse : String → Except String Incident) (body e : String)
    (h : jsonParse body = .error e)
    (envF : Env Incident IncidentFeed.State) (envA : Env Incident AdminPanel.State)
    (parse : String → Except String Json) (envJ : Env Json (Except String (List Json)))
    (rejected : String) (hrej : parse rejected = .error e)
    (accepted : String) (v : Json) (hacc : parse accepted = .ok v) (hv : v ≠ .null)
    (prev : List Json) (hprev : ∀ x ∈ prev, x ≠ .null) (hcaller : envJ.caller = .ok prev) :
    (∃ envF', subscribeHandler jsonParse IncidentFeed.callbacks body envF = .ok envF' ∧
        envF'.caller.incidents.length = envF.caller.incidents.length ∧
        envF'.calls = envF.calls) ∧
    (∃ envA', subscribeHandler jsonParse AdminPanel.callbacks body envA = .ok envA' ∧
        envA'.caller.incidents.length = envA.caller.incidents.length ∧
        envA'.calls = envA.calls) ∧
    (∃ envJ', subscribeHandler parse IncidentFeed.callbacksJson rejected envJ = .ok envJ' ∧
        envJ'.caller = envJ.caller ∧ envJ'.calls = envJ.calls) ∧
    (∃ envJ' c, subscribeHandler parse IncidentFeed.callbacksJson accepted envJ = .ok envJ' ∧
        envJ'.calls = envJ.calls ++ [Call.onMessage v] ∧
        envJ'.caller = .ok c ∧ v ∈ c ∧
        (c.length = prev.length ∨ c.length = prev.length + 1)) := by
  refine ⟨?_, ?_, ?_, ?_⟩
  · exact ⟨{ envF with
        console := envF.console ++ ["Failed to parse WebSocket message: " ++ e] },
      by simp only [subscribeHandler, h], rfl, rfl⟩
  · exact ⟨{ envA with
        console := envA.console ++ ["Failed to parse WebSocket message: " ++ e] },
      by simp only [subscribeHandler, h], rfl, rfl⟩
  · exact ⟨{ envJ with
        console := envJ.console ++ ["Failed to parse WebSocket message: " ++ e] },
      by simp only [subscribeHandler, hrej], rfl, rfl⟩
  · obtain ⟨c, hc, hmem, hlen⟩ := feed_applyUpdateJson_length prev v hprev hv
    refine ⟨{ envJ with caller := .ok c, calls := envJ.calls ++ [Call.onMessage v] }, c,
      ?_, rfl, rfl, hmem, hlen⟩
    simp only [subscribeHandler, hacc, IncidentFeed.callbacksJson,
      IncidentFeed.onMessageJson, hcaller, hc]

/-- Claim C9, amended, at a concrete input: with a parser that throws on `not json` and
reads `42` as a number, the rejected body leaves the one record of the feed alone, and the
accepted body puts the number into the collection. -/
theorem c9_rejected_body_keeps_collection_size_witness :
    (fun b : String =>
        if b = "42" then Except.ok (Json.num 42) else Except.error "SyntaxError")
      "not json" = .error "SyntaxError" ∧
    (∃ envF', subscribeHandler
        (fun b : String =>
          if b = "ok" then Except.ok (⟨1, "VERIFIED", 80, some 0⟩ : Incident)
          else Except.error "SyntaxError")
        IncidentFeed.callbacks "not json"
        ⟨⟨[⟨1, "VERIFIED", 80, some 0⟩], false⟩, [], []⟩ = .ok envF' ∧
      envF'.caller.incidents.length = 1 ∧ envF'.calls = []) ∧
    (∃ envJ' c, subscribeHandler
        (fun b : String =>
          if b = "42" then Except.ok (Json.num 42) else Except.error "SyntaxError")
        IncidentFeed.callbacksJson "42"
        ⟨.ok [Incident.toJson ⟨1, "VERIFIED", 80, some 0⟩], [], []⟩ = .ok envJ' ∧
      envJ'.calls = [] ++ [Call.onMessage (Json.num 42)] ∧
      envJ'.caller = .ok c ∧ Json.num 42 ∈ c ∧
      (c.length = 1 ∨ c.length = 1 + 1)) :=
  ⟨rfl,
    (c9_rejected_body_keeps_collection_size
      (fun b : String =>
        if b = "ok" then Except.ok (⟨1, "VERIFIED", 80, some 0⟩ : Incident)
        else Except.error "SyntaxError")
      "not json" "SyntaxError" rfl
      ⟨⟨[⟨1, "VERIFIED", 80, some 0⟩], false⟩, [], []⟩
      ⟨⟨[], false, none⟩, [], []⟩
      (fun b : String =>
        if b = "42" then Except.ok (Json.num 42) else Except.error "SyntaxError")
      ⟨.ok [Incident.toJson ⟨1, "VERIFIED", 80, some 0⟩], [], []⟩
      "not json" rfl "42" (Json.num 42) rfl (by simp)
      [Incident.toJson ⟨1, "VERIFIED", 80, some 0⟩] (by simp [Incident.toJson]) rfl).1,
    (c9_rejected_body_keeps_collection_size
      (fun b : String =>
        if b = "ok" then Except.ok (⟨1, "VERIFIED", 80, some 0⟩ : Incident)
        else Except.error "SyntaxError")
      "not json" "SyntaxError" rfl
      ⟨⟨[⟨1, "VERIFIED", 80, some 0⟩], false⟩, [], []⟩
      ⟨⟨[], false, none⟩, [], []⟩
      (fun b : String =>
        if b = "42" then Except.ok (Json.num 42) else Except.error "SyntaxError")
      ⟨.ok [Incident.toJson ⟨1, "VERIFIED", 80, some 0⟩], [], []⟩
      "not json" rfl "42" (Json.num 42) rfl (by simp)
      [Incident.toJson ⟨1, "VERIFIED", 80, some 0⟩] (by simp [Incident.toJson]) rfl).2.2.2⟩

end IncidentResponse
